import Mathlib

/-!
Shallow embedding of the mm-binary-io endian conversion and binary stream
I/O core (src/endian.rs, src/from_bytes.rs, src/read_integer.rs,
src/write_integer.rs, src/binary_read.rs, src/binary_write.rs).

Bytes are modelled as `Nat` (values < 256 in well-formed data), byte slices
as `List Nat`.  Rust's panicking slice indexing is modelled by `Option`:
an out-of-bounds read or write yields `none` (the panic).  Machine casts
`as iN` / `as uN` are the two's-complement reinterpretations `toSigned` /
`toUnsigned`.
-/

/-- Rust `x as iW` for an unsigned `W`-bit value `n`: two's-complement
reinterpretation of the bit pattern. -/
def toSigned (w : Nat) (n : Nat) : Int :=
  if n < 2 ^ (w - 1) then (n : Int) else (n : Int) - 2 ^ w

/-- Rust `v as uW` for a signed value `v`: two's-complement bit pattern,
i.e. `v` modulo `2^W` as a nonnegative value. -/
def toUnsigned (w : Nat) (v : Int) : Nat :=
  (v % ((2 : Int) ^ w)).toNat

/-- Rust slice read `bytes[i]`: the byte, or `none` for the
out-of-bounds panic. -/
def getByte (bytes : List Nat) (i : Nat) : Option Nat :=
  bytes.get? i

/-- Rust slice write `destination[i] = v`: the updated buffer, or `none`
for the out-of-bounds panic. -/
def setByte (destination : List Nat) (i : Nat) (v : Nat) : Option (List Nat) :=
  if i < destination.length then some (destination.set i v) else none

namespace BigEndian

/-- `BigEndian::u8_from_bytes`. -/
def u8_from_bytes (bytes : List Nat) : Option Nat :=
  getByte bytes 0

/-- `BigEndian::i8_from_bytes`: `BigEndian::u8_from_bytes(bytes) as i8`. -/
def i8_from_bytes (bytes : List Nat) : Option Int :=
  (u8_from_bytes bytes).map (toSigned 8)

/-- `BigEndian::u16_from_bytes`. -/
def u16_from_bytes (bytes : List Nat) : Option Nat := do
  let b0 ← getByte bytes 0
  let b1 ← getByte bytes 1
  pure ((b0 <<< 8) ||| (b1 <<< 0))

/-- `BigEndian::i16_from_bytes`: `BigEndian::u16_from_bytes(bytes) as i16`. -/
def i16_from_bytes (bytes : List Nat) : Option Int :=
  (u16_from_bytes bytes).map (toSigned 16)

/-- `BigEndian::u32_from_bytes`. -/
def u32_from_bytes (bytes : List Nat) : Option Nat := do
  let b0 ← getByte bytes 0
  let b1 ← getByte bytes 1
  let b2 ← getByte bytes 2
  let b3 ← getByte bytes 3
  pure ((b0 <<< 24) ||| (b1 <<< 16) ||| (b2 <<< 8) ||| (b3 <<< 0))

/-- `BigEndian::i32_from_bytes`: `BigEndian::u32_from_bytes(bytes) as i32`. -/
def i32_from_bytes (bytes : List Nat) : Option Int :=
  (u32_from_bytes bytes).map (toSigned 32)

/-- `BigEndian::u64_from_bytes`. -/
def u64_from_bytes (bytes : List Nat) : Option Nat := do
  let b0 ← getByte bytes 0
  let b1 ← getByte bytes 1
  let b2 ← getByte bytes 2
  let b3 ← getByte bytes 3
  let b4 ← getByte bytes 4
  let b5 ← getByte bytes 5
  let b6 ← getByte bytes 6
  let b7 ← getByte bytes 7
  pure ((b0 <<< 56) ||| (b1 <<< 48) ||| (b2 <<< 40) ||| (b3 <<< 32) |||
    (b4 <<< 24) ||| (b5 <<< 16) ||| (b6 <<< 8) ||| (b7 <<< 0))

/-- `BigEndian::i64_from_bytes`: `BigEndian::u64_from_bytes(bytes) as i64`. -/
def i64_from_bytes (bytes : List Nat) : Option Int :=
  (u64_from_bytes bytes).map (toSigned 64)

/-- `BigEndian::u8_to_bytes`. -/
def u8_to_bytes (value : Nat) (destination : List Nat) : Option (List Nat) :=
  setByte destination 0 value

/-- `BigEndian::i8_to_bytes`: `destination[0] = value as u8`. -/
def i8_to_bytes (value : Int) (destination : List Nat) : Option (List Nat) :=
  setByte destination 0 (toUnsigned 8 value)

/-- `BigEndian::u16_to_bytes`. -/
def u16_to_bytes (value : Nat) (destination : List Nat) : Option (List Nat) := do
  let d0 ← setByte destination 0 ((value >>> 8) &&& 0xFF)
  let d1 ← setByte d0 1 ((value >>> 0) &&& 0xFF)
  pure d1

/-- `BigEndian::i16_to_bytes`: `let value = value as u16;` then the same
byte placement as `u16_to_bytes`. -/
def i16_to_bytes (value : Int) (destination : List Nat) : Option (List Nat) := do
  let value := toUnsigned 16 value
  let d0 ← setByte destination 0 ((value >>> 8) &&& 0xFF)
  let d1 ← setByte d0 1 ((value >>> 0) &&& 0xFF)
  pure d1

/-- `BigEndian::u32_to_bytes`. -/
def u32_to_bytes (value : Nat) (destination : List Nat) : Option (List Nat) := do
  let d0 ← setByte destination 0 ((value >>> 24) &&& 0xFF)
  let d1 ← setByte d0 1 ((value >>> 16) &&& 0xFF)
  let d2 ← setByte d1 2 ((value >>> 8) &&& 0xFF)
  let d3 ← setByte d2 3 ((value >>> 0) &&& 0xFF)
  pure d3

/-- `BigEndian::i32_to_bytes`: `let value = value as u32;` then the same
byte placement as `u32_to_bytes`. -/
def i32_to_bytes (value : Int) (destination : List Nat) : Option (List Nat) := do
  let value := toUnsigned 32 value
  let d0 ← setByte destination 0 ((value >>> 24) &&& 0xFF)
  let d1 ← setByte d0 1 ((value >>> 16) &&& 0xFF)
  let d2 ← setByte d1 2 ((value >>> 8) &&& 0xFF)
  let d3 ← setByte d2 3 ((value >>> 0) &&& 0xFF)
  pure d3

/-- `BigEndian::u64_to_bytes`. -/
def u64_to_bytes (value : Nat) (destination : List Nat) : Option (List Nat) := do
  let d0 ← setByte destination 0 ((value >>> 56) &&& 0xFF)
  let d1 ← setByte d0 1 ((value >>> 48) &&& 0xFF)
  let d2 ← setByte d1 2 ((value >>> 40) &&& 0xFF)
  let d3 ← setByte d2 3 ((value >>> 32) &&& 0xFF)
  let d4 ← setByte d3 4 ((value >>> 24) &&& 0xFF)
  let d5 ← setByte d4 5 ((value >>> 16) &&& 0xFF)
  let d6 ← setByte d5 6 ((value >>> 8) &&& 0xFF)
  let d7 ← setByte d6 7 ((value >>> 0) &&& 0xFF)
  pure d7

/-- `BigEndian::i64_to_bytes`: `let value = value as u64;` then the same
byte placement as `u64_to_bytes`. -/
def i64_to_bytes (value : Int) (destination : List Nat) : Option (List Nat) := do
  let value := toUnsigned 64 value
  let d0 ← setByte destination 0 ((value >>> 56) &&& 0xFF)
  let d1 ← setByte d0 1 ((value >>> 48) &&& 0xFF)
  let d2 ← setByte d1 2 ((value >>> 40) &&& 0xFF)
  let d3 ← setByte d2 3 ((value >>> 32) &&& 0xFF)
  let d4 ← setByte d3 4 ((value >>> 24) &&& 0xFF)
  let d5 ← setByte d4 5 ((value >>> 16) &&& 0xFF)
  let d6 ← setByte d5 6 ((value >>> 8) &&& 0xFF)
  let d7 ← setByte d6 7 ((value >>> 0) &&& 0xFF)
  pure d7

end BigEndian

namespace LittleEndian

/-- `LittleEndian::u8_from_bytes`. -/
def u8_from_bytes (bytes : List Nat) : Option Nat :=
  getByte bytes 0

/-- `LittleEndian::i8_from_bytes`: the source delegates to
`BigEndian::u8_from_bytes(bytes) as i8`. -/
def i8_from_bytes (bytes : List Nat) : Option Int :=
  (BigEndian.u8_from_bytes bytes).map (toSigned 8)

/-- `LittleEndian::u16_from_bytes`: reads `bytes[1]` first, as the source
expression does. -/
def u16_from_bytes (bytes : List Nat) : Option Nat := do
  let b1 ← getByte bytes 1
  let b0 ← getByte bytes 0
  pure ((b1 <<< 8) ||| (b0 <<< 0))

/-- `LittleEndian::i16_from_bytes`: the source delegates to
`BigEndian::u16_from_bytes(bytes) as i16` (big-endian byte order). -/
def i16_from_bytes (bytes : List Nat) : Option Int :=
  (BigEndian.u16_from_bytes bytes).map (toSigned 16)

/-- `LittleEndian::u32_from_bytes`: reads `bytes[3]` first, as the source
expression does. -/
def u32_from_bytes (bytes : List Nat) : Option Nat := do
  let b3 ← getByte bytes 3
  let b2 ← getByte bytes 2
  let b1 ← getByte bytes 1
  let b0 ← getByte bytes 0
  pure ((b3 <<< 24) ||| (b2 <<< 16) ||| (b1 <<< 8) ||| (b0 <<< 0))

/-- `LittleEndian::i32_from_bytes`: the source delegates to
`BigEndian::u32_from_bytes(bytes) as i32` (big-endian byte order). -/
def i32_from_bytes (bytes : List Nat) : Option Int :=
  (BigEndian.u32_from_bytes bytes).map (toSigned 32)

/-- `LittleEndian::u64_from_bytes`: reads `bytes[7]` first, as the source
expression does. -/
def u64_from_bytes (bytes : List Nat) : Option Nat := do
  let b7 ← getByte bytes 7
  let b6 ← getByte bytes 6
  let b5 ← getByte bytes 5
  let b4 ← getByte bytes 4
  let b3 ← getByte bytes 3
  let b2 ← getByte bytes 2
  let b1 ← getByte bytes 1
  let b0 ← getByte bytes 0
  pure ((b7 <<< 56) ||| (b6 <<< 48) ||| (b5 <<< 40) ||| (b4 <<< 32) |||
    (b3 <<< 24) ||| (b2 <<< 16) ||| (b1 <<< 8) ||| (b0 <<< 0))

/-- `LittleEndian::i64_from_bytes`: the source delegates to
`BigEndian::u64_from_bytes(bytes) as i64` (big-endian byte order). -/
def i64_from_bytes (bytes : List Nat) : Option Int :=
  (BigEndian.u64_from_bytes bytes).map (toSigned 64)

/-- `LittleEndian::u8_to_bytes`. -/
def u8_to_bytes (value : Nat) (destination : List Nat) : Option (List Nat) :=
  setByte destination 0 value

/-- `LittleEndian::i8_to_bytes`: `LittleEndian::u8_to_bytes(value as u8, destination)`. -/
def i8_to_bytes (value : Int) (destination : List Nat) : Option (List Nat) :=
  u8_to_bytes (toUnsigned 8 value) destination

/-- `LittleEndian::u16_to_bytes`: writes `destination[1]` first, as the
source does. -/
def u16_to_bytes (value : Nat) (destination : List Nat) : Option (List Nat) := do
  let d1 ← setByte destination 1 ((value >>> 8) &&& 0xFF)
  let d0 ← setByte d1 0 ((value >>> 0) &&& 0xFF)
  pure d0

/-- `LittleEndian::i16_to_bytes`: `let value = value as u16;` then the same
byte placement as `u16_to_bytes`. -/
def i16_to_bytes (value : Int) (destination : List Nat) : Option (List Nat) := do
  let value := toUnsigned 16 value
  let d1 ← setByte destination 1 ((value >>> 8) &&& 0xFF)
  let d0 ← setByte d1 0 ((value >>> 0) &&& 0xFF)
  pure d0

/-- `LittleEndian::u32_to_bytes`: writes `destination[3]` first, as the
source does. -/
def u32_to_bytes (value : Nat) (destination : List Nat) : Option (List Nat) := do
  let d3 ← setByte destination 3 ((value >>> 24) &&& 0xFF)
  let d2 ← setByte d3 2 ((value >>> 16) &&& 0xFF)
  let d1 ← setByte d2 1 ((value >>> 8) &&& 0xFF)
  let d0 ← setByte d1 0 ((value >>> 0) &&& 0xFF)
  pure d0

/-- `LittleEndian::i32_to_bytes`: `let value = value as u32;` then the same
byte placement as `u32_to_bytes`. -/
def i32_to_bytes (value : Int) (destination : List Nat) : Option (List Nat) := do
  let value := toUnsigned 32 value
  let d3 ← setByte destination 3 ((value >>> 24) &&& 0xFF)
  let d2 ← setByte d3 2 ((value >>> 16) &&& 0xFF)
  let d1 ← setByte d2 1 ((value >>> 8) &&& 0xFF)
  let d0 ← setByte d1 0 ((value >>> 0) &&& 0xFF)
  pure d0

/-- `LittleEndian::u64_to_bytes`: writes `destination[7]` first, as the
source does. -/
def u64_to_bytes (value : Nat) (destination : List Nat) : Option (List Nat) := do
  let d7 ← setByte destination 7 ((value >>> 56) &&& 0xFF)
  let d6 ← setByte d7 6 ((value >>> 48) &&& 0xFF)
  let d5 ← setByte d6 5 ((value >>> 40) &&& 0xFF)
  let d4 ← setByte d5 4 ((value >>> 32) &&& 0xFF)
  let d3 ← setByte d4 3 ((value >>> 24) &&& 0xFF)
  let d2 ← setByte d3 2 ((value >>> 16) &&& 0xFF)
  let d1 ← setByte d2 1 ((value >>> 8) &&& 0xFF)
  let d0 ← setByte d1 0 ((value >>> 0) &&& 0xFF)
  pure d0

/-- `LittleEndian::i64_to_bytes`: `let value = value as u64;` then the same
byte placement as `u64_to_bytes`. -/
def i64_to_bytes (value : Int) (destination : List Nat) : Option (List Nat) := do
  let value := toUnsigned 64 value
  let d7 ← setByte destination 7 ((value >>> 56) &&& 0xFF)
  let d6 ← setByte d7 6 ((value >>> 48) &&& 0xFF)
  let d5 ← setByte d6 5 ((value >>> 40) &&& 0xFF)
  let d4 ← setByte d5 4 ((value >>> 32) &&& 0xFF)
  let d3 ← setByte d4 3 ((value >>> 24) &&& 0xFF)
  let d2 ← setByte d3 2 ((value >>> 16) &&& 0xFF)
  let d1 ← setByte d2 1 ((value >>> 8) &&& 0xFF)
  let d0 ← setByte d1 0 ((value >>> 0) &&& 0xFF)
  pure d0

end LittleEndian

/-- The two byte orderings, `BigEndian` and `LittleEndian` (the two
implementors of the `Endian` trait). -/
inductive ByteOrder where
  | big
  | little

/-- The 8 fixed-width integer kinds the library handles. -/
inductive IntKind where
  | u8
  | i8
  | u16
  | i16
  | u32
  | i32
  | u64
  | i64

/-- Byte width of an integer kind (`std::mem::size_of::<Integer>()`). -/
def IntKind.width : IntKind → Nat
  | .u8 => 1
  | .i8 => 1
  | .u16 => 2
  | .i16 => 2
  | .u32 => 4
  | .i32 => 4
  | .u64 => 8
  | .i64 => 8

/-- The representable range of each integer kind, as a predicate on the
mathematical value. -/
def IntKind.valid : IntKind → Int → Prop
  | .u8, v => 0 ≤ v ∧ v < 256
  | .i8, v => -128 ≤ v ∧ v < 128
  | .u16, v => 0 ≤ v ∧ v < 65536
  | .i16, v => -32768 ≤ v ∧ v < 32768
  | .u32, v => 0 ≤ v ∧ v < 4294967296
  | .i32, v => -2147483648 ≤ v ∧ v < 2147483648
  | .u64, v => 0 ≤ v ∧ v < 18446744073709551616
  | .i64, v => -9223372036854775808 ≤ v ∧ v < 9223372036854775808

/-- Dispatch of the `Endian` trait method `u8_from_bytes`. -/
def ByteOrder.u8_from_bytes : ByteOrder → List Nat → Option Nat
  | .big => BigEndian.u8_from_bytes
  | .little => LittleEndian.u8_from_bytes

/-- Dispatch of the `Endian` trait method `i8_from_bytes`. -/
def ByteOrder.i8_from_bytes : ByteOrder → List Nat → Option Int
  | .big => BigEndian.i8_from_bytes
  | .little => LittleEndian.i8_from_bytes

/-- Dispatch of the `Endian` trait method `u16_from_bytes`. -/
def ByteOrder.u16_from_bytes : ByteOrder → List Nat → Option Nat
  | .big => BigEndian.u16_from_bytes
  | .little => LittleEndian.u16_from_bytes

/-- Dispatch of the `Endian` trait method `i16_from_bytes`. -/
def ByteOrder.i16_from_bytes : ByteOrder → List Nat → Option Int
  | .big => BigEndian.i16_from_bytes
  | .little => LittleEndian.i16_from_bytes

/-- Dispatch of the `Endian` trait method `u32_from_bytes`. -/
def ByteOrder.u32_from_bytes : ByteOrder → List Nat → Option Nat
  | .big => BigEndian.u32_from_bytes
  | .little => LittleEndian.u32_from_bytes

/-- Dispatch of the `Endian` trait method `i32_from_bytes`. -/
def ByteOrder.i32_from_bytes : ByteOrder → List Nat → Option Int
  | .big => BigEndian.i32_from_bytes
  | .little => LittleEndian.i32_from_bytes

/-- Dispatch of the `Endian` trait method `u64_from_bytes`. -/
def ByteOrder.u64_from_bytes : ByteOrder → List Nat → Option Nat
  | .big => BigEndian.u64_from_bytes
  | .little => LittleEndian.u64_from_bytes

/-- Dispatch of the `Endian` trait method `i64_from_bytes`. -/
def ByteOrder.i64_from_bytes : ByteOrder → List Nat → Option Int
  | .big => BigEndian.i64_from_bytes
  | .little => LittleEndian.i64_from_bytes

/-- Dispatch of the `Endian` trait method `u8_to_bytes`. -/
def ByteOrder.u8_to_bytes : ByteOrder → Nat → List Nat → Option (List Nat)
  | .big => BigEndian.u8_to_bytes
  | .little => LittleEndian.u8_to_bytes

/-- Dispatch of the `Endian` trait method `i8_to_bytes`. -/
def ByteOrder.i8_to_bytes : ByteOrder → Int → List Nat → Option (List Nat)
  | .big => BigEndian.i8_to_bytes
  | .little => LittleEndian.i8_to_bytes

/-- Dispatch of the `Endian` trait method `u16_to_bytes`. -/
def ByteOrder.u16_to_bytes : ByteOrder → Nat → List Nat → Option (List Nat)
  | .big => BigEndian.u16_to_bytes
  | .little => LittleEndian.u16_to_bytes

/-- Dispatch of the `Endian` trait method `i16_to_bytes`. -/
def ByteOrder.i16_to_bytes : ByteOrder → Int → List Nat → Option (List Nat)
  | .big => BigEndian.i16_to_bytes
  | .little => LittleEndian.i16_to_bytes

/-- Dispatch of the `Endian` trait method `u32_to_bytes`. -/
def ByteOrder.u32_to_bytes : ByteOrder → Nat → List Nat → Option (List Nat)
  | .big => BigEndian.u32_to_bytes
  | .little => LittleEndian.u32_to_bytes

/-- Dispatch of the `Endian` trait method `i32_to_bytes`. -/
def ByteOrder.i32_to_bytes : ByteOrder → Int → List Nat → Option (List Nat)
  | .big => BigEndian.i32_to_bytes
  | .little => LittleEndian.i32_to_bytes

/-- Dispatch of the `Endian` trait method `u64_to_bytes`. -/
def ByteOrder.u64_to_bytes : ByteOrder → Nat → List Nat → Option (List Nat)
  | .big => BigEndian.u64_to_bytes
  | .little => LittleEndian.u64_to_bytes

/-- Dispatch of the `Endian` trait method `i64_to_bytes`. -/
def ByteOrder.i64_to_bytes : ByteOrder → Int → List Nat → Option (List Nat)
  | .big => BigEndian.i64_to_bytes
  | .little => LittleEndian.i64_to_bytes

/-- Kind-indexed pure decode, mirroring the `FromBytes` trait dispatch in
src/from_bytes.rs: each kind calls its `Endian` decode method.  Unsigned
results are embedded into `Int`. -/
def Endian.from_bytes (o : ByteOrder) (k : IntKind) (bytes : List Nat) : Option Int :=
  match k with
  | .u8 => (o.u8_from_bytes bytes).map (fun n => (n : Int))
  | .i8 => o.i8_from_bytes bytes
  | .u16 => (o.u16_from_bytes bytes).map (fun n => (n : Int))
  | .i16 => o.i16_from_bytes bytes
  | .u32 => (o.u32_from_bytes bytes).map (fun n => (n : Int))
  | .i32 => o.i32_from_bytes bytes
  | .u64 => (o.u64_from_bytes bytes).map (fun n => (n : Int))
  | .i64 => o.i64_from_bytes bytes

/-- Kind-indexed pure encode: each kind calls its `Endian` encode method.
Unsigned kinds take the value's nonnegative bit pattern. -/
def Endian.to_bytes (o : ByteOrder) (k : IntKind) (v : Int) (destination : List Nat) :
    Option (List Nat) :=
  match k with
  | .u8 => o.u8_to_bytes v.toNat destination
  | .i8 => o.i8_to_bytes v destination
  | .u16 => o.u16_to_bytes v.toNat destination
  | .i16 => o.i16_to_bytes v destination
  | .u32 => o.u32_to_bytes v.toNat destination
  | .i32 => o.i32_to_bytes v destination
  | .u64 => o.u64_to_bytes v.toNat destination
  | .i64 => o.i64_to_bytes v destination

/-- Collaborator model of `std::io::Read::read_exact` on an in-memory
stream (the stream is the list of bytes not yet consumed): either the
next `n` bytes and the rest of the stream, or an error when the stream
ends first. -/
def readExact (n : Nat) (s : List Nat) : Option (List Nat × List Nat) :=
  if n ≤ s.length then some (s.take n, s.drop n) else none

namespace ReadInteger

/-- `impl ReadInteger for u8`: read 1 byte, decode with the chosen order. -/
def u8 (o : ByteOrder) (s : List Nat) : Option (Nat × List Nat) := do
  let (buf, s1) ← readExact 1 s
  let v ← o.u8_from_bytes buf
  pure (v, s1)

/-- `impl ReadInteger for i8`: the `u8` read, reinterpreted (`x as i8`). -/
def i8 (o : ByteOrder) (s : List Nat) : Option (Int × List Nat) :=
  (u8 o s).map (fun p => (toSigned 8 p.1, p.2))

/-- `impl ReadInteger for u16`: read 2 bytes, decode with the chosen order. -/
def u16 (o : ByteOrder) (s : List Nat) : Option (Nat × List Nat) := do
  let (buf, s1) ← readExact 2 s
  let v ← o.u16_from_bytes buf
  pure (v, s1)

/-- `impl ReadInteger for i16`: the `u16` read, reinterpreted (`x as i16`). -/
def i16 (o : ByteOrder) (s : List Nat) : Option (Int × List Nat) :=
  (u16 o s).map (fun p => (toSigned 16 p.1, p.2))

/-- `impl ReadInteger for u32`: read 4 bytes, decode with the chosen order. -/
def u32 (o : ByteOrder) (s : List Nat) : Option (Nat × List Nat) := do
  let (buf, s1) ← readExact 4 s
  let v ← o.u32_from_bytes buf
  pure (v, s1)

/-- `impl ReadInteger for i32`: the `u32` read, reinterpreted (`x as i32`). -/
def i32 (o : ByteOrder) (s : List Nat) : Option (Int × List Nat) :=
  (u32 o s).map (fun p => (toSigned 32 p.1, p.2))

/-- `impl ReadInteger for u64`: read 8 bytes, decode with the chosen order. -/
def u64 (o : ByteOrder) (s : List Nat) : Option (Nat × List Nat) := do
  let (buf, s1) ← readExact 8 s
  let v ← o.u64_from_bytes buf
  pure (v, s1)

/-- `impl ReadInteger for i64`: the `u64` read, reinterpreted (`x as i64`). -/
def i64 (o : ByteOrder) (s : List Nat) : Option (Int × List Nat) :=
  (u64 o s).map (fun p => (toSigned 64 p.1, p.2))

end ReadInteger

namespace WriteInteger

/-- `impl WriteInteger for u8`: encode into a fresh 1-byte buffer and
write it; the result is the byte sequence handed to the writer. -/
def u8 (o : ByteOrder) (value : Nat) : Option (List Nat) := do
  let buf ← o.u8_to_bytes value (List.replicate 1 0)
  pure buf

/-- `impl WriteInteger for i8`: `u8::write_integer(&(*self as u8), writer)`. -/
def i8 (o : ByteOrder) (value : Int) : Option (List Nat) :=
  u8 o (toUnsigned 8 value)

/-- `impl WriteInteger for u16`: encode into a fresh 2-byte buffer and
write it. -/
def u16 (o : ByteOrder) (value : Nat) : Option (List Nat) := do
  let buf ← o.u16_to_bytes value (List.replicate 2 0)
  pure buf

/-- `impl WriteInteger for i16`: `u16::write_integer(&(*self as u16), writer)`. -/
def i16 (o : ByteOrder) (value : Int) : Option (List Nat) :=
  u16 o (toUnsigned 16 value)

/-- `impl WriteInteger for u32`: encode into a fresh 4-byte buffer and
write it. -/
def u32 (o : ByteOrder) (value : Nat) : Option (List Nat) := do
  let buf ← o.u32_to_bytes value (List.replicate 4 0)
  pure buf

/-- `impl WriteInteger for i32`: `u32::write_integer(&(*self as u32), writer)`. -/
def i32 (o : ByteOrder) (value : Int) : Option (List Nat) :=
  u32 o (toUnsigned 32 value)

/-- `impl WriteInteger for u64`: encode into a fresh 8-byte buffer and
write it. -/
def u64 (o : ByteOrder) (value : Nat) : Option (List Nat) := do
  let buf ← o.u64_to_bytes value (List.replicate 8 0)
  pure buf

/-- `impl WriteInteger for i64`: `u64::write_integer(&(*self as u64), writer)`. -/
def i64 (o : ByteOrder) (value : Int) : Option (List Nat) :=
  u64 o (toUnsigned 64 value)

end WriteInteger

/-- `BinaryRead::read_integer`: kind dispatch to the `ReadInteger` impls.
Unsigned results are embedded into `Int`. -/
def readInteger (o : ByteOrder) (k : IntKind) (s : List Nat) : Option (Int × List Nat) :=
  match k with
  | .u8 => (ReadInteger.u8 o s).map (fun p => ((p.1 : Int), p.2))
  | .i8 => ReadInteger.i8 o s
  | .u16 => (ReadInteger.u16 o s).map (fun p => ((p.1 : Int), p.2))
  | .i16 => ReadInteger.i16 o s
  | .u32 => (ReadInteger.u32 o s).map (fun p => ((p.1 : Int), p.2))
  | .i32 => ReadInteger.i32 o s
  | .u64 => (ReadInteger.u64 o s).map (fun p => ((p.1 : Int), p.2))
  | .i64 => ReadInteger.i64 o s

/-- `BinaryWrite::write_integer`: kind dispatch to the `WriteInteger`
impls; the result is the byte sequence the writer receives. -/
def writeInteger (o : ByteOrder) (k : IntKind) (v : Int) : Option (List Nat) :=
  match k with
  | .u8 => WriteInteger.u8 o v.toNat
  | .i8 => WriteInteger.i8 o v
  | .u16 => WriteInteger.u16 o v.toNat
  | .i16 => WriteInteger.i16 o v
  | .u32 => WriteInteger.u32 o v.toNat
  | .i32 => WriteInteger.i32 o v
  | .u64 => WriteInteger.u64 o v.toNat
  | .i64 => WriteInteger.i64 o v

/-- `BinaryRead::read_byte_array`: allocate `byte_count` bytes, fill them
with `read_exact`, return them together with the rest of the stream. -/
def readByteArray (byteCount : Nat) (s : List Nat) : Option (List Nat × List Nat) := do
  let (buf, s1) ← readExact byteCount s
  pure (buf, s1)

/-- `BinaryRead::read_integer_array`: `element_count` sequential
`read_integer` calls, aborting on the first failure. -/
def readIntegerArray (o : ByteOrder) (k : IntKind) :
    Nat → List Nat → Option (List Int × List Nat)
  | 0, s => some ([], s)
  | n + 1, s => do
    let (v, s1) ← readInteger o k s
    let (vs, s2) ← readIntegerArray o k n s1
    pure (v :: vs, s2)

/-- Disjoint bitwise-or is addition: when `b` fits below the alignment of
`a`, `a ||| b = a + b`. -/
lemma or_eq_add_of_lt (k : Nat) {a b m : Nat} (hm : m = 2 ^ k) (hb : b < m) (ha : m ∣ a) :
    a ||| b = a + b := by
  obtain ⟨c, rfl⟩ := ha
  subst hm
  exact (Nat.mul_add_lt_is_or hb c).symm

/-- `(n >> s) & 0xFF` extracts the byte at bit offset `s`. -/
lemma shr_and255 (n s : Nat) : (n >>> s) &&& 255 = n / 2 ^ s % 256 := by
  calc (n >>> s) &&& 255 = (n >>> s) % 256 := by
        simpa using Nat.and_pow_two_sub_one_eq_mod (n >>> s) 8
    _ = n / 2 ^ s % 256 := by rw [Nat.shiftRight_eq_div_pow]

/-- Left shift as multiplication. -/
lemma shl_eq (x k : Nat) : x <<< k = x * 2 ^ k := Nat.shiftLeft_eq x k

/-- An extracted byte is below 256. -/
lemma byte_lt (n s : Nat) : (n >>> s) &&& 255 < 256 := by
  rw [shr_and255]; exact Nat.mod_lt _ (by norm_num)

/-- Big-endian 2-byte recombination, in plain arithmetic. -/
lemma dec_bytes16 (x0 x1 : Nat) (h1 : x1 < 256) :
    (x0 <<< 8) ||| (x1 <<< 0) = x0 * 256 + x1 := by
  have e0 : x0 <<< 8 = x0 * 256 := by rw [shl_eq]; norm_num
  have e1 : x1 <<< 0 = x1 := by rw [shl_eq]; norm_num
  have o1 : x0 * 256 ||| x1 = x0 * 256 + x1 :=
    or_eq_add_of_lt 8 (m := 256) (by norm_num) h1 ⟨x0, by ring⟩
  rw [e0, e1, o1]

/-- Big-endian 4-byte recombination, in plain arithmetic. -/
lemma dec_bytes32 (x0 x1 x2 x3 : Nat) (h1 : x1 < 256) (h2 : x2 < 256) (h3 : x3 < 256) :
    (x0 <<< 24) ||| (x1 <<< 16) ||| (x2 <<< 8) ||| (x3 <<< 0) =
      ((x0 * 256 + x1) * 256 + x2) * 256 + x3 := by
  have e0 : x0 <<< 24 = x0 * 16777216 := by rw [shl_eq]; norm_num
  have e1 : x1 <<< 16 = x1 * 65536 := by rw [shl_eq]; norm_num
  have e2 : x2 <<< 8 = x2 * 256 := by rw [shl_eq]; norm_num
  have e3 : x3 <<< 0 = x3 := by rw [shl_eq]; norm_num
  have o1 : x0 * 16777216 ||| x1 * 65536 = x0 * 16777216 + x1 * 65536 :=
    or_eq_add_of_lt 24 (m := 16777216) (by norm_num) (by omega) ⟨x0, by ring⟩
  have o2 : x0 * 16777216 + x1 * 65536 ||| x2 * 256 =
      x0 * 16777216 + x1 * 65536 + x2 * 256 :=
    or_eq_add_of_lt 16 (m := 65536) (by norm_num) (by omega) ⟨x0 * 256 + x1, by ring⟩
  have o3 : x0 * 16777216 + x1 * 65536 + x2 * 256 ||| x3 =
      x0 * 16777216 + x1 * 65536 + x2 * 256 + x3 :=
    or_eq_add_of_lt 8 (m := 256) (by norm_num) h3 ⟨(x0 * 256 + x1) * 256 + x2, by ring⟩
  rw [e0, e1, e2, e3, o1, o2, o3]
  ring

/-- Big-endian 8-byte recombination, in plain arithmetic. -/
lemma dec_bytes64 (x0 x1 x2 x3 x4 x5 x6 x7 : Nat) (h1 : x1 < 256) (h2 : x2 < 256)
    (h3 : x3 < 256) (h4 : x4 < 256) (h5 : x5 < 256) (h6 : x6 < 256) (h7 : x7 < 256) :
    (x0 <<< 56) ||| (x1 <<< 48) ||| (x2 <<< 40) ||| (x3 <<< 32) |||
      (x4 <<< 24) ||| (x5 <<< 16) ||| (x6 <<< 8) ||| (x7 <<< 0) =
      ((((((x0 * 256 + x1) * 256 + x2) * 256 + x3) * 256 + x4) * 256 + x5) * 256 + x6) *
        256 + x7 := by
  have e0 : x0 <<< 56 = x0 * 72057594037927936 := by rw [shl_eq]; norm_num
  have e1 : x1 <<< 48 = x1 * 281474976710656 := by rw [shl_eq]; norm_num
  have e2 : x2 <<< 40 = x2 * 1099511627776 := by rw [shl_eq]; norm_num
  have e3 : x3 <<< 32 = x3 * 4294967296 := by rw [shl_eq]; norm_num
  have e4 : x4 <<< 24 = x4 * 16777216 := by rw [shl_eq]; norm_num
  have e5 : x5 <<< 16 = x5 * 65536 := by rw [shl_eq]; norm_num
  have e6 : x6 <<< 8 = x6 * 256 := by rw [shl_eq]; norm_num
  have e7 : x7 <<< 0 = x7 := by rw [shl_eq]; norm_num
  have o1 : x0 * 72057594037927936 ||| x1 * 281474976710656 =
      x0 * 72057594037927936 + x1 * 281474976710656 :=
    or_eq_add_of_lt 56 (m := 72057594037927936) (by norm_num) (by omega) ⟨x0, by ring⟩
  have o2 : x0 * 72057594037927936 + x1 * 281474976710656 ||| x2 * 1099511627776 =
      x0 * 72057594037927936 + x1 * 281474976710656 + x2 * 1099511627776 :=
    or_eq_add_of_lt 48 (m := 281474976710656) (by norm_num) (by omega)
      ⟨x0 * 256 + x1, by ring⟩
  have o3 : x0 * 72057594037927936 + x1 * 281474976710656 + x2 * 1099511627776 |||
      x3 * 4294967296 =
      x0 * 72057594037927936 + x1 * 281474976710656 + x2 * 1099511627776 +
        x3 * 4294967296 :=
    or_eq_add_of_lt 40 (m := 1099511627776) (by norm_num) (by omega)
      ⟨(x0 * 256 + x1) * 256 + x2, by ring⟩
  have o4 : x0 * 72057594037927936 + x1 * 281474976710656 + x2 * 1099511627776 +
      x3 * 4294967296 ||| x4 * 16777216 =
      x0 * 72057594037927936 + x1 * 281474976710656 + x2 * 1099511627776 +
        x3 * 4294967296 + x4 * 16777216 :=
    or_eq_add_of_lt 32 (m := 4294967296) (by norm_num) (by omega)
      ⟨((x0 * 256 + x1) * 256 + x2) * 256 + x3, by ring⟩
  have o5 : x0 * 72057594037927936 + x1 * 281474976710656 + x2 * 1099511627776 +
      x3 * 4294967296 + x4 * 16777216 ||| x5 * 65536 =
      x0 * 72057594037927936 + x1 * 281474976710656 + x2 * 1099511627776 +
        x3 * 4294967296 + x4 * 16777216 + x5 * 65536 :=
    or_eq_add_of_lt 24 (m := 16777216) (by norm_num) (by omega)
      ⟨(((x0 * 256 + x1) * 256 + x2) * 256 + x3) * 256 + x4, by ring⟩
  have o6 : x0 * 72057594037927936 + x1 * 281474976710656 + x2 * 1099511627776 +
      x3 * 4294967296 + x4 * 16777216 + x5 * 65536 ||| x6 * 256 =
      x0 * 72057594037927936 + x1 * 281474976710656 + x2 * 1099511627776 +
        x3 * 4294967296 + x4 * 16777216 + x5 * 65536 + x6 * 256 :=
    or_eq_add_of_lt 16 (m := 65536) (by norm_num) (by omega)
      ⟨((((x0 * 256 + x1) * 256 + x2) * 256 + x3) * 256 + x4) * 256 + x5, by ring⟩
  have o7 : x0 * 72057594037927936 + x1 * 281474976710656 + x2 * 1099511627776 +
      x3 * 4294967296 + x4 * 16777216 + x5 * 65536 + x6 * 256 ||| x7 =
      x0 * 72057594037927936 + x1 * 281474976710656 + x2 * 1099511627776 +
        x3 * 4294967296 + x4 * 16777216 + x5 * 65536 + x6 * 256 + x7 :=
    or_eq_add_of_lt 8 (m := 256) (by norm_num) h7
      ⟨(((((x0 * 256 + x1) * 256 + x2) * 256 + x3) * 256 + x4) * 256 + x5) * 256 + x6,
        by ring⟩
  rw [e0, e1, e2, e3, e4, e5, e6, e7, o1, o2, o3, o4, o5, o6, o7]
  ring

/-- Decoding the two extracted bytes of a 16-bit value recovers it. -/
lemma key16 (n : Nat) (hn : n < 65536) :
    (((n >>> 8) &&& 255) <<< 8) ||| (((n >>> 0) &&& 255) <<< 0) = n := by
  rw [dec_bytes16 _ _ (byte_lt n 0)]
  simp only [shr_and255]
  norm_num
  omega

/-- Decoding the four extracted bytes of a 32-bit value recovers it. -/
lemma key32 (n : Nat) (hn : n < 4294967296) :
    (((n >>> 24) &&& 255) <<< 24) ||| (((n >>> 16) &&& 255) <<< 16) |||
      (((n >>> 8) &&& 255) <<< 8) ||| (((n >>> 0) &&& 255) <<< 0) = n := by
  rw [dec_bytes32 _ _ _ _ (byte_lt n 16) (byte_lt n 8) (byte_lt n 0)]
  simp only [shr_and255]
  norm_num
  omega

/-- Decoding the eight extracted bytes of a 64-bit value recovers it. -/
lemma key64 (n : Nat) (hn : n < 18446744073709551616) :
    (((n >>> 56) &&& 255) <<< 56) ||| (((n >>> 48) &&& 255) <<< 48) |||
      (((n >>> 40) &&& 255) <<< 40) ||| (((n >>> 32) &&& 255) <<< 32) |||
      (((n >>> 24) &&& 255) <<< 24) ||| (((n >>> 16) &&& 255) <<< 16) |||
      (((n >>> 8) &&& 255) <<< 8) ||| (((n >>> 0) &&& 255) <<< 0) = n := by
  rw [dec_bytes64 _ _ _ _ _ _ _ _ (byte_lt n 48) (byte_lt n 40) (byte_lt n 32)
    (byte_lt n 24) (byte_lt n 16) (byte_lt n 8) (byte_lt n 0)]
  simp only [shr_and255]
  norm_num
  omega

/-- Reinterpreting a signed value as unsigned and back is the identity on
the kind's range. -/
lemma toSigned_toUnsigned {w : Nat} (v : Int) (hw : 0 < w)
    (h1 : -(2 ^ (w - 1) : Int) ≤ v) (h2 : v < (2 ^ (w - 1) : Int)) :
    toSigned w (toUnsigned w v) = v := by
  have hMw : (2 : Int) ^ w = 2 * 2 ^ (w - 1) := by
    conv_lhs => rw [show w = (w - 1) + 1 by omega]
    ring
  have hA : (0 : Int) < 2 ^ (w - 1) := by positivity
  have hcast : (((2 : Nat) ^ (w - 1) : Nat) : Int) = (2 : Int) ^ (w - 1) := by
    push_cast; ring
  unfold toUnsigned toSigned
  rcases le_or_lt 0 v with hv | hv
  · rw [Int.emod_eq_of_lt hv (by omega)]
    rw [if_pos (by omega)]
    omega
  · have hmod : v % ((2 : Int) ^ w) = v + 2 ^ w := by
      have h3 : (0 : Int) ≤ v + 2 ^ w := by omega
      have h4 : v + 2 ^ w < 2 ^ w := by omega
      have h5 : (v + 2 ^ w * 1) % (2 ^ w) = v % (2 ^ w) := Int.add_mul_emod_self_left ..
      rw [mul_one] at h5
      rw [← h5, Int.emod_eq_of_lt h3 h4]
    rw [hmod]
    rw [if_neg (by omega)]
    omega

/-- The unsigned reinterpretation is below `2^w`. -/
lemma toUnsigned_lt (w : Nat) (v : Int) : toUnsigned w v < 2 ^ w := by
  unfold toUnsigned
  have hpos : (0 : Int) < (2 : Int) ^ w := by positivity
  have h1 : 0 ≤ v % ((2 : Int) ^ w) := Int.emod_nonneg v hpos.ne'
  have h2 : v % ((2 : Int) ^ w) < (2 : Int) ^ w := Int.emod_lt_of_pos v hpos
  have hcast : (((2 : Nat) ^ w : Nat) : Int) = (2 : Int) ^ w := by push_cast; ring
  omega

/-- Round trip of the 1-byte unsigned codec through a fresh buffer. -/
lemma u8_round (o : ByteOrder) (n : Nat) :
    ∃ x0, ByteOrder.u8_to_bytes o n (List.replicate 1 0) = some [x0] ∧
      ByteOrder.u8_from_bytes o [x0] = some n := by
  cases o with
  | big => exact ⟨n, rfl, rfl⟩
  | little => exact ⟨n, rfl, rfl⟩

/-- Round trip of the 2-byte unsigned codec through a fresh buffer. -/
lemma u16_round (o : ByteOrder) (n : Nat) (hn : n < 65536) :
    ∃ x0 x1, ByteOrder.u16_to_bytes o n (List.replicate 2 0) = some [x0, x1] ∧
      ByteOrder.u16_from_bytes o [x0, x1] = some n := by
  cases o with
  | big =>
    refine ⟨(n >>> 8) &&& 255, (n >>> 0) &&& 255, rfl, ?_⟩
    show some ((((n >>> 8) &&& 255) <<< 8) ||| (((n >>> 0) &&& 255) <<< 0)) = some n
    exact congrArg some (key16 n hn)
  | little =>
    refine ⟨(n >>> 0) &&& 255, (n >>> 8) &&& 255, rfl, ?_⟩
    show some ((((n >>> 8) &&& 255) <<< 8) ||| (((n >>> 0) &&& 255) <<< 0)) = some n
    exact congrArg some (key16 n hn)

/-- Round trip of the 4-byte unsigned codec through a fresh buffer. -/
lemma u32_round (o : ByteOrder) (n : Nat) (hn : n < 4294967296) :
    ∃ x0 x1 x2 x3, ByteOrder.u32_to_bytes o n (List.replicate 4 0) = some [x0, x1, x2, x3] ∧
      ByteOrder.u32_from_bytes o [x0, x1, x2, x3] = some n := by
  cases o with
  | big =>
    refine ⟨(n >>> 24) &&& 255, (n >>> 16) &&& 255, (n >>> 8) &&& 255, (n >>> 0) &&& 255,
      rfl, ?_⟩
    show some ((((n >>> 24) &&& 255) <<< 24) ||| (((n >>> 16) &&& 255) <<< 16) |||
      (((n >>> 8) &&& 255) <<< 8) ||| (((n >>> 0) &&& 255) <<< 0)) = some n
    exact congrArg some (key32 n hn)
  | little =>
    refine ⟨(n >>> 0) &&& 255, (n >>> 8) &&& 255, (n >>> 16) &&& 255, (n >>> 24) &&& 255,
      rfl, ?_⟩
    show some ((((n >>> 24) &&& 255) <<< 24) ||| (((n >>> 16) &&& 255) <<< 16) |||
      (((n >>> 8) &&& 255) <<< 8) ||| (((n >>> 0) &&& 255) <<< 0)) = some n
    exact congrArg some (key32 n hn)

/-- Round trip of the 8-byte unsigned codec through a fresh buffer. -/
lemma u64_round (o : ByteOrder) (n : Nat) (hn : n < 18446744073709551616) :
    ∃ x0 x1 x2 x3 x4 x5 x6 x7,
      ByteOrder.u64_to_bytes o n (List.replicate 8 0) =
        some [x0, x1, x2, x3, x4, x5, x6, x7] ∧
      ByteOrder.u64_from_bytes o [x0, x1, x2, x3, x4, x5, x6, x7] = some n := by
  cases o with
  | big =>
    refine ⟨(n >>> 56) &&& 255, (n >>> 48) &&& 255, (n >>> 40) &&& 255, (n >>> 32) &&& 255,
      (n >>> 24) &&& 255, (n >>> 16) &&& 255, (n >>> 8) &&& 255, (n >>> 0) &&& 255,
      rfl, ?_⟩
    show some ((((n >>> 56) &&& 255) <<< 56) ||| (((n >>> 48) &&& 255) <<< 48) |||
      (((n >>> 40) &&& 255) <<< 40) ||| (((n >>> 32) &&& 255) <<< 32) |||
      (((n >>> 24) &&& 255) <<< 24) ||| (((n >>> 16) &&& 255) <<< 16) |||
      (((n >>> 8) &&& 255) <<< 8) ||| (((n >>> 0) &&& 255) <<< 0)) = some n
    exact congrArg some (key64 n hn)
  | little =>
    refine ⟨(n >>> 0) &&& 255, (n >>> 8) &&& 255, (n >>> 16) &&& 255, (n >>> 24) &&& 255,
      (n >>> 32) &&& 255, (n >>> 40) &&& 255, (n >>> 48) &&& 255, (n >>> 56) &&& 255,
      rfl, ?_⟩
    show some ((((n >>> 56) &&& 255) <<< 56) ||| (((n >>> 48) &&& 255) <<< 48) |||
      (((n >>> 40) &&& 255) <<< 40) ||| (((n >>> 32) &&& 255) <<< 32) |||
      (((n >>> 24) &&& 255) <<< 24) ||| (((n >>> 16) &&& 255) <<< 16) |||
      (((n >>> 8) &&& 255) <<< 8) ||| (((n >>> 0) &&& 255) <<< 0)) = some n
    exact congrArg some (key64 n hn)

/-- `BigEndian::u8_from_bytes` succeeds exactly on buffers of length ≥ 1. -/
lemma isSome_be_u8 (bytes : List Nat) :
    (BigEndian.u8_from_bytes bytes).isSome ↔ 1 ≤ bytes.length := by
  rcases bytes with _ | ⟨b0, t⟩ <;> simp [BigEndian.u8_from_bytes, getByte]

/-- `BigEndian::u16_from_bytes` succeeds exactly on buffers of length ≥ 2. -/
lemma isSome_be_u16 (bytes : List Nat) :
    (BigEndian.u16_from_bytes bytes).isSome ↔ 2 ≤ bytes.length := by
  rcases bytes with _ | ⟨b0, _ | ⟨b1, t⟩⟩ <;> simp [BigEndian.u16_from_bytes, getByte]

/-- `BigEndian::u32_from_bytes` succeeds exactly on buffers of length ≥ 4. -/
lemma isSome_be_u32 (bytes : List Nat) :
    (BigEndian.u32_from_bytes bytes).isSome ↔ 4 ≤ bytes.length := by
  rcases bytes with _ | ⟨b0, _ | ⟨b1, _ | ⟨b2, _ | ⟨b3, t⟩⟩⟩⟩ <;>
    simp [BigEndian.u32_from_bytes, getByte]

/-- `BigEndian::u64_from_bytes` succeeds exactly on buffers of length ≥ 8. -/
lemma isSome_be_u64 (bytes : List Nat) :
    (BigEndian.u64_from_bytes bytes).isSome ↔ 8 ≤ bytes.length := by
  rcases bytes with
    _ | ⟨b0, _ | ⟨b1, _ | ⟨b2, _ | ⟨b3, _ | ⟨b4, _ | ⟨b5, _ | ⟨b6, _ | ⟨b7, t⟩⟩⟩⟩⟩⟩⟩⟩ <;>
    simp [BigEndian.u64_from_bytes, getByte]

/-- `LittleEndian::u8_from_bytes` succeeds exactly on buffers of length ≥ 1. -/
lemma isSome_le_u8 (bytes : List Nat) :
    (LittleEndian.u8_from_bytes bytes).isSome ↔ 1 ≤ bytes.length := by
  rcases bytes with _ | ⟨b0, t⟩ <;> simp [LittleEndian.u8_from_bytes, getByte]

/-- `LittleEndian::u16_from_bytes` succeeds exactly on buffers of length ≥ 2. -/
lemma isSome_le_u16 (bytes : List Nat) :
    (LittleEndian.u16_from_bytes bytes).isSome ↔ 2 ≤ bytes.length := by
  rcases bytes with _ | ⟨b0, _ | ⟨b1, t⟩⟩ <;> simp [LittleEndian.u16_from_bytes, getByte]

/-- `LittleEndian::u32_from_bytes` succeeds exactly on buffers of length ≥ 4. -/
lemma isSome_le_u32 (bytes : List Nat) :
    (LittleEndian.u32_from_bytes bytes).isSome ↔ 4 ≤ bytes.length := by
  rcases bytes with _ | ⟨b0, _ | ⟨b1, _ | ⟨b2, _ | ⟨b3, t⟩⟩⟩⟩ <;>
    simp [LittleEndian.u32_from_bytes, getByte]

/-- `LittleEndian::u64_from_bytes` succeeds exactly on buffers of length ≥ 8. -/
lemma isSome_le_u64 (bytes : List Nat) :
    (LittleEndian.u64_from_bytes bytes).isSome ↔ 8 ≤ bytes.length := by
  rcases bytes with
    _ | ⟨b0, _ | ⟨b1, _ | ⟨b2, _ | ⟨b3, _ | ⟨b4, _ | ⟨b5, _ | ⟨b6, _ | ⟨b7, t⟩⟩⟩⟩⟩⟩⟩⟩ <;>
    simp [LittleEndian.u64_from_bytes, getByte]

/-- Dispatcher-level success characterization, 1-byte unsigned decode. -/
lemma isSome_u8_from_bytes (o : ByteOrder) (bytes : List Nat) :
    (o.u8_from_bytes bytes).isSome ↔ 1 ≤ bytes.length := by
  cases o <;> simp [ByteOrder.u8_from_bytes, isSome_be_u8, isSome_le_u8]

/-- Dispatcher-level success characterization, 2-byte unsigned decode. -/
lemma isSome_u16_from_bytes (o : ByteOrder) (bytes : List Nat) :
    (o.u16_from_bytes bytes).isSome ↔ 2 ≤ bytes.length := by
  cases o <;> simp [ByteOrder.u16_from_bytes, isSome_be_u16, isSome_le_u16]

/-- Dispatcher-level success characterization, 4-byte unsigned decode. -/
lemma isSome_u32_from_bytes (o : ByteOrder) (bytes : List Nat) :
    (o.u32_from_bytes bytes).isSome ↔ 4 ≤ bytes.length := by
  cases o <;> simp [ByteOrder.u32_from_bytes, isSome_be_u32, isSome_le_u32]

/-- Dispatcher-level success characterization, 8-byte unsigned decode. -/
lemma isSome_u64_from_bytes (o : ByteOrder) (bytes : List Nat) :
    (o.u64_from_bytes bytes).isSome ↔ 8 ≤ bytes.length := by
  cases o <;> simp [ByteOrder.u64_from_bytes, isSome_be_u64, isSome_le_u64]

/-- `isSome` is unaffected by a pure post-composition. -/
lemma isSome_bind_some {A B : Type} (f : A → B) (x : Option A) :
    (x.bind fun a => some (f a)).isSome = x.isSome := by
  cases x <;> rfl

/-- Every kind's byte width is positive. -/
lemma width_pos (k : IntKind) : 0 < k.width := by
  cases k <;> simp [IntKind.width]

/-- Success characterization of the kind-indexed decode: it faults (panics
in the source, `none` here) exactly when the buffer is shorter than the
kind's width. -/
lemma isSome_from_bytes (o : ByteOrder) (k : IntKind) (bytes : List Nat) :
    (Endian.from_bytes o k bytes).isSome ↔ k.width ≤ bytes.length := by
  cases k with
  | u8 => simpa [Endian.from_bytes, IntKind.width, isSome_bind_some] using isSome_u8_from_bytes o bytes
  | i8 =>
    cases o <;>
      simpa [Endian.from_bytes, IntKind.width, ByteOrder.i8_from_bytes,
        BigEndian.i8_from_bytes, LittleEndian.i8_from_bytes] using isSome_be_u8 bytes
  | u16 => simpa [Endian.from_bytes, IntKind.width, isSome_bind_some] using isSome_u16_from_bytes o bytes
  | i16 =>
    cases o <;>
      simpa [Endian.from_bytes, IntKind.width, ByteOrder.i16_from_bytes,
        BigEndian.i16_from_bytes, LittleEndian.i16_from_bytes] using isSome_be_u16 bytes
  | u32 => simpa [Endian.from_bytes, IntKind.width, isSome_bind_some] using isSome_u32_from_bytes o bytes
  | i32 =>
    cases o <;>
      simpa [Endian.from_bytes, IntKind.width, ByteOrder.i32_from_bytes,
        BigEndian.i32_from_bytes, LittleEndian.i32_from_bytes] using isSome_be_u32 bytes
  | u64 => simpa [Endian.from_bytes, IntKind.width, isSome_bind_some] using isSome_u64_from_bytes o bytes
  | i64 =>
    cases o <;>
      simpa [Endian.from_bytes, IntKind.width, ByteOrder.i64_from_bytes,
        BigEndian.i64_from_bytes, LittleEndian.i64_from_bytes] using isSome_be_u64 bytes

/-- The `u8` stream read: consumes exactly 1 byte(s) on success, fails
when the stream is shorter. -/
lemma readU8_spec (o : ByteOrder) (s : List Nat) :
    (1 ≤ s.length → ∃ u, ReadInteger.u8 o s = some (u, s.drop 1)) ∧
    (s.length < 1 → ReadInteger.u8 o s = none) := by
  constructor
  · intro h
    have hre : readExact 1 s = some (s.take 1, s.drop 1) := by simp [readExact, h]
    have hbuf : (s.take 1).length = 1 := by rw [List.length_take]; omega
    obtain ⟨u, hu⟩ := Option.isSome_iff_exists.mp
      ((isSome_u8_from_bytes o (s.take 1)).mpr (by omega))
    exact ⟨u, by simp [ReadInteger.u8, hre, hu]⟩
  · intro h
    have hre : readExact 1 s = none := by unfold readExact; rw [if_neg (by omega)]
    simp [ReadInteger.u8, hre]

/-- The `u16` stream read: consumes exactly 2 byte(s) on success, fails
when the stream is shorter. -/
lemma readU16_spec (o : ByteOrder) (s : List Nat) :
    (2 ≤ s.length → ∃ u, ReadInteger.u16 o s = some (u, s.drop 2)) ∧
    (s.length < 2 → ReadInteger.u16 o s = none) := by
  constructor
  · intro h
    have hre : readExact 2 s = some (s.take 2, s.drop 2) := by simp [readExact, h]
    have hbuf : (s.take 2).length = 2 := by rw [List.length_take]; omega
    obtain ⟨u, hu⟩ := Option.isSome_iff_exists.mp
      ((isSome_u16_from_bytes o (s.take 2)).mpr (by omega))
    exact ⟨u, by simp [ReadInteger.u16, hre, hu]⟩
  · intro h
    have hre : readExact 2 s = none := by unfold readExact; rw [if_neg (by omega)]
    simp [ReadInteger.u16, hre]

/-- The `u32` stream read: consumes exactly 4 byte(s) on success, fails
when the stream is shorter. -/
lemma readU32_spec (o : ByteOrder) (s : List Nat) :
    (4 ≤ s.length → ∃ u, ReadInteger.u32 o s = some (u, s.drop 4)) ∧
    (s.length < 4 → ReadInteger.u32 o s = none) := by
  constructor
  · intro h
    have hre : readExact 4 s = some (s.take 4, s.drop 4) := by simp [readExact, h]
    have hbuf : (s.take 4).length = 4 := by rw [List.length_take]; omega
    obtain ⟨u, hu⟩ := Option.isSome_iff_exists.mp
      ((isSome_u32_from_bytes o (s.take 4)).mpr (by omega))
    exact ⟨u, by simp [ReadInteger.u32, hre, hu]⟩
  · intro h
    have hre : readExact 4 s = none := by unfold readExact; rw [if_neg (by omega)]
    simp [ReadInteger.u32, hre]

/-- The `u64` stream read: consumes exactly 8 byte(s) on success, fails
when the stream is shorter. -/
lemma readU64_spec (o : ByteOrder) (s : List Nat) :
    (8 ≤ s.length → ∃ u, ReadInteger.u64 o s = some (u, s.drop 8)) ∧
    (s.length < 8 → ReadInteger.u64 o s = none) := by
  constructor
  · intro h
    have hre : readExact 8 s = some (s.take 8, s.drop 8) := by simp [readExact, h]
    have hbuf : (s.take 8).length = 8 := by rw [List.length_take]; omega
    obtain ⟨u, hu⟩ := Option.isSome_iff_exists.mp
      ((isSome_u64_from_bytes o (s.take 8)).mpr (by omega))
    exact ⟨u, by simp [ReadInteger.u64, hre, hu]⟩
  · intro h
    have hre : readExact 8 s = none := by unfold readExact; rw [if_neg (by omega)]
    simp [ReadInteger.u64, hre]

/-- The kind-indexed stream read: consumes exactly `width` bytes on
success, fails when the stream is shorter. -/
lemma readInteger_spec (o : ByteOrder) (k : IntKind) (s : List Nat) :
    (k.width ≤ s.length → ∃ v, readInteger o k s = some (v, s.drop k.width)) ∧
    (s.length < k.width → readInteger o k s = none) := by
  cases k with
  | u8 =>
    constructor
    · intro h
      obtain ⟨u, hu⟩ := (readU8_spec o s).1 (by simpa [IntKind.width] using h)
      exact ⟨(u : Int), by simp [readInteger, IntKind.width, hu]⟩
    · intro h
      simp [readInteger, (readU8_spec o s).2 (by simpa [IntKind.width] using h)]
  | i8 =>
    constructor
    · intro h
      obtain ⟨u, hu⟩ := (readU8_spec o s).1 (by simpa [IntKind.width] using h)
      exact ⟨toSigned 8 u, by simp [readInteger, ReadInteger.i8, IntKind.width, hu]⟩
    · intro h
      simp [readInteger, ReadInteger.i8,
        (readU8_spec o s).2 (by simpa [IntKind.width] using h)]
  | u16 =>
    constructor
    · intro h
      obtain ⟨u, hu⟩ := (readU16_spec o s).1 (by simpa [IntKind.width] using h)
      exact ⟨(u : Int), by simp [readInteger, IntKind.width, hu]⟩
    · intro h
      simp [readInteger, (readU16_spec o s).2 (by simpa [IntKind.width] using h)]
  | i16 =>
    constructor
    · intro h
      obtain ⟨u, hu⟩ := (readU16_spec o s).1 (by simpa [IntKind.width] using h)
      exact ⟨toSigned 16 u, by simp [readInteger, ReadInteger.i16, IntKind.width, hu]⟩
    · intro h
      simp [readInteger, ReadInteger.i16,
        (readU16_spec o s).2 (by simpa [IntKind.width] using h)]
  | u32 =>
    constructor
    · intro h
      obtain ⟨u, hu⟩ := (readU32_spec o s).1 (by simpa [IntKind.width] using h)
      exact ⟨(u : Int), by simp [readInteger, IntKind.width, hu]⟩
    · intro h
      simp [readInteger, (readU32_spec o s).2 (by simpa [IntKind.width] using h)]
  | i32 =>
    constructor
    · intro h
      obtain ⟨u, hu⟩ := (readU32_spec o s).1 (by simpa [IntKind.width] using h)
      exact ⟨toSigned 32 u, by simp [readInteger, ReadInteger.i32, IntKind.width, hu]⟩
    · intro h
      simp [readInteger, ReadInteger.i32,
        (readU32_spec o s).2 (by simpa [IntKind.width] using h)]
  | u64 =>
    constructor
    · intro h
      obtain ⟨u, hu⟩ := (readU64_spec o s).1 (by simpa [IntKind.width] using h)
      exact ⟨(u : Int), by simp [readInteger, IntKind.width, hu]⟩
    · intro h
      simp [readInteger, (readU64_spec o s).2 (by simpa [IntKind.width] using h)]
  | i64 =>
    constructor
    · intro h
      obtain ⟨u, hu⟩ := (readU64_spec o s).1 (by simpa [IntKind.width] using h)
      exact ⟨toSigned 64 u, by simp [readInteger, ReadInteger.i64, IntKind.width, hu]⟩
    · intro h
      simp [readInteger, ReadInteger.i64,
        (readU64_spec o s).2 (by simpa [IntKind.width] using h)]

/-- Any successful stream read leaves exactly the stream minus `width`
bytes. -/
lemma readInteger_shape {o : ByteOrder} {k : IntKind} {s : List Nat} {v : Int}
    {s1 : List Nat} (h : readInteger o k s = some (v, s1)) :
    k.width ≤ s.length ∧ s1 = s.drop k.width := by
  rcases Nat.lt_or_ge s.length k.width with hlt | hge
  · rw [(readInteger_spec o k s).2 hlt] at h
    cases h
  · obtain ⟨v2, hv2⟩ := (readInteger_spec o k s).1 hge
    rw [hv2] at h
    simp at h
    exact ⟨hge, h.2.symm⟩

/-- `read_integer_array` succeeds exactly when the stream holds at least
`n * width` bytes: the first element failure aborts the whole call. -/
lemma readIntegerArray_isSome (o : ByteOrder) (k : IntKind) :
    ∀ (n : Nat) (s : List Nat),
      (readIntegerArray o k n s).isSome ↔ n * k.width ≤ s.length := by
  intro n
  induction n with
  | zero => intro s; simp [readIntegerArray]
  | succ n ih =>
    intro s
    have hw := width_pos k
    have hmul : (n + 1) * k.width = n * k.width + k.width := by ring
    rcases Nat.lt_or_ge s.length k.width with hlt | hge
    · have hnone := (readInteger_spec o k s).2 hlt
      simp [readIntegerArray, hnone]
      omega
    · obtain ⟨v, hv⟩ := (readInteger_spec o k s).1 hge
      have ihd := ih (s.drop k.width)
      rw [List.length_drop] at ihd
      cases hrest : readIntegerArray o k n (s.drop k.width) with
      | none =>
        rw [hrest] at ihd
        simp only [Option.isSome_none, Bool.false_eq_true, false_iff] at ihd
        simp [readIntegerArray, hv, hrest]
        omega
      | some p =>
        obtain ⟨vs, s2⟩ := p
        rw [hrest] at ihd
        simp only [Option.isSome_some, true_iff] at ihd
        simp [readIntegerArray, hv, hrest]
        omega

/-- Successful `read_integer_array`: `n` elements in call order, each read
by `read_integer` from its own offset, consuming exactly `n * width`
bytes. -/
lemma readIntegerArray_success (o : ByteOrder) (k : IntKind) :
    ∀ (n : Nat) (s : List Nat) (vs : List Int) (s2 : List Nat),
      readIntegerArray o k n s = some (vs, s2) →
      vs.length = n ∧ s2 = s.drop (n * k.width) ∧
      ∀ i, i < n → ∃ v rest, readInteger o k (s.drop (i * k.width)) = some (v, rest) ∧
        vs.get? i = some v := by
  intro n
  induction n with
  | zero =>
    intro s vs s2 h
    simp [readIntegerArray] at h
    obtain ⟨rfl, rfl⟩ := h
    simp
  | succ n ih =>
    intro s vs s2 h
    rcases hri : readInteger o k s with _ | ⟨v, s1⟩
    · simp [readIntegerArray, hri] at h
    · rcases hrest : readIntegerArray o k n s1 with _ | ⟨vs1, s2a⟩
      · simp [readIntegerArray, hri, hrest] at h
      · simp [readIntegerArray, hri, hrest] at h
        obtain ⟨rfl, rfl⟩ := h
        obtain ⟨hw1, hdrop⟩ := readInteger_shape hri
        subst hdrop
        obtain ⟨hlen, hdrop2, helem⟩ := ih (s.drop k.width) vs1 s2a hrest
        refine ⟨by simp [hlen], ?_, ?_⟩
        · rw [hdrop2, List.drop_drop]
          congr 1
          ring
        · intro i hi
          cases i with
          | zero =>
            refine ⟨v, s.drop k.width, ?_, rfl⟩
            simpa using hri
          | succ i =>
            obtain ⟨v2, rest, hv2, hget⟩ := helem i (by omega)
            refine ⟨v2, rest, ?_, by simpa using hget⟩
            rw [show s.drop ((i + 1) * k.width) = (s.drop k.width).drop (i * k.width) from ?_]
            · exact hv2
            · rw [List.drop_drop]
              congr 1
              ring

/-- `List.set` at a lower index does not change `get?` at a higher index. -/
lemma get?_set_of_lt {l : List Nat} (j b i : Nat) (h : j < i) :
    (l.set j b).get? i = l.get? i := by
  induction l generalizing j i with
  | nil => simp
  | cons a t ih =>
    cases j with
    | zero =>
      cases i with
      | zero => omega
      | succ i => simp
    | succ j =>
      cases i with
      | zero => simp
      | succ i => simpa using ih j i (by omega)

/-- `BigEndian::u16_to_bytes` writes only indices below 2: the rest of
the destination is unchanged, and the length is preserved. -/
lemma frame_be_u16 (value : Nat) (dest : List Nat) (h : 2 ≤ dest.length) :
    ∃ out, BigEndian.u16_to_bytes value dest = some out ∧ out.length = dest.length ∧
      ∀ i, 2 ≤ i → out.get? i = dest.get? i := by
  have h0 : setByte dest 0 ((value >>> 8) &&& 0xFF) = some (dest.set 0 ((value >>> 8) &&& 0xFF)) := by
    unfold setByte; rw [if_pos (by omega)]
  have h1 : setByte (dest.set 0 ((value >>> 8) &&& 0xFF)) 1 (value &&& 0xFF) = some ((dest.set 0 ((value >>> 8) &&& 0xFF)).set 1 (value &&& 0xFF)) := by
    unfold setByte; rw [if_pos (by rw [List.length_set]; omega)]
  refine ⟨((dest.set 0 ((value >>> 8) &&& 0xFF)).set 1 (value &&& 0xFF)), ?_, ?_, ?_⟩
  · simp [BigEndian.u16_to_bytes, h0, h1]
  · rw [List.length_set, List.length_set]
  · intro i hi
    rw [get?_set_of_lt _ _ _ (show 1 < i by omega), get?_set_of_lt _ _ _ (show 0 < i by omega)]

/-- `LittleEndian::u16_to_bytes` writes only indices below 2: the rest of
the destination is unchanged, and the length is preserved. -/
lemma frame_le_u16 (value : Nat) (dest : List Nat) (h : 2 ≤ dest.length) :
    ∃ out, LittleEndian.u16_to_bytes value dest = some out ∧ out.length = dest.length ∧
      ∀ i, 2 ≤ i → out.get? i = dest.get? i := by
  have h0 : setByte dest 1 ((value >>> 8) &&& 0xFF) = some (dest.set 1 ((value >>> 8) &&& 0xFF)) := by
    unfold setByte; rw [if_pos (by omega)]
  have h1 : setByte (dest.set 1 ((value >>> 8) &&& 0xFF)) 0 (value &&& 0xFF) = some ((dest.set 1 ((value >>> 8) &&& 0xFF)).set 0 (value &&& 0xFF)) := by
    unfold setByte; rw [if_pos (by rw [List.length_set]; omega)]
  refine ⟨((dest.set 1 ((value >>> 8) &&& 0xFF)).set 0 (value &&& 0xFF)), ?_, ?_, ?_⟩
  · simp [LittleEndian.u16_to_bytes, h0, h1]
  · rw [List.length_set, List.length_set]
  · intro i hi
    rw [get?_set_of_lt _ _ _ (show 0 < i by omega), get?_set_of_lt _ _ _ (show 1 < i by omega)]

/-- `BigEndian::u32_to_bytes` writes only indices below 4: the rest of
the destination is unchanged, and the length is preserved. -/
lemma frame_be_u32 (value : Nat) (dest : List Nat) (h : 4 ≤ dest.length) :
    ∃ out, BigEndian.u32_to_bytes value dest = some out ∧ out.length = dest.length ∧
      ∀ i, 4 ≤ i → out.get? i = dest.get? i := by
  have h0 : setByte dest 0 ((value >>> 24) &&& 0xFF) = some (dest.set 0 ((value >>> 24) &&& 0xFF)) := by
    unfold setByte; rw [if_pos (by omega)]
  have h1 : setByte (dest.set 0 ((value >>> 24) &&& 0xFF)) 1 ((value >>> 16) &&& 0xFF) = some ((dest.set 0 ((value >>> 24) &&& 0xFF)).set 1 ((value >>> 16) &&& 0xFF)) := by
    unfold setByte; rw [if_pos (by rw [List.length_set]; omega)]
  have h2 : setByte ((dest.set 0 ((value >>> 24) &&& 0xFF)).set 1 ((value >>> 16) &&& 0xFF)) 2 ((value >>> 8) &&& 0xFF) = some (((dest.set 0 ((value >>> 24) &&& 0xFF)).set 1 ((value >>> 16) &&& 0xFF)).set 2 ((value >>> 8) &&& 0xFF)) := by
    unfold setByte; rw [if_pos (by rw [List.length_set, List.length_set]; omega)]
  have h3 : setByte (((dest.set 0 ((value >>> 24) &&& 0xFF)).set 1 ((value >>> 16) &&& 0xFF)).set 2 ((value >>> 8) &&& 0xFF)) 3 (value &&& 0xFF) = some ((((dest.set 0 ((value >>> 24) &&& 0xFF)).set 1 ((value >>> 16) &&& 0xFF)).set 2 ((value >>> 8) &&& 0xFF)).set 3 (value &&& 0xFF)) := by
    unfold setByte; rw [if_pos (by rw [List.length_set, List.length_set, List.length_set]; omega)]
  refine ⟨((((dest.set 0 ((value >>> 24) &&& 0xFF)).set 1 ((value >>> 16) &&& 0xFF)).set 2 ((value >>> 8) &&& 0xFF)).set 3 (value &&& 0xFF)), ?_, ?_, ?_⟩
  · simp [BigEndian.u32_to_bytes, h0, h1, h2, h3]
  · rw [List.length_set, List.length_set, List.length_set, List.length_set]
  · intro i hi
    rw [get?_set_of_lt _ _ _ (show 3 < i by omega), get?_set_of_lt _ _ _ (show 2 < i by omega), get?_set_of_lt _ _ _ (show 1 < i by omega), get?_set_of_lt _ _ _ (show 0 < i by omega)]

/-- `LittleEndian::u32_to_bytes` writes only indices below 4: the rest of
the destination is unchanged, and the length is preserved. -/
lemma frame_le_u32 (value : Nat) (dest : List Nat) (h : 4 ≤ dest.length) :
    ∃ out, LittleEndian.u32_to_bytes value dest = some out ∧ out.length = dest.length ∧
      ∀ i, 4 ≤ i → out.get? i = dest.get? i := by
  have h0 : setByte dest 3 ((value >>> 24) &&& 0xFF) = some (dest.set 3 ((value >>> 24) &&& 0xFF)) := by
    unfold setByte; rw [if_pos (by omega)]
  have h1 : setByte (dest.set 3 ((value >>> 24) &&& 0xFF)) 2 ((value >>> 16) &&& 0xFF) = some ((dest.set 3 ((value >>> 24) &&& 0xFF)).set 2 ((value >>> 16) &&& 0xFF)) := by
    unfold setByte; rw [if_pos (by rw [List.length_set]; omega)]
  have h2 : setByte ((dest.set 3 ((value >>> 24) &&& 0xFF)).set 2 ((value >>> 16) &&& 0xFF)) 1 ((value >>> 8) &&& 0xFF) = some (((dest.set 3 ((value >>> 24) &&& 0xFF)).set 2 ((value >>> 16) &&& 0xFF)).set 1 ((value >>> 8) &&& 0xFF)) := by
    unfold setByte; rw [if_pos (by rw [List.length_set, List.length_set]; omega)]
  have h3 : setByte (((dest.set 3 ((value >>> 24) &&& 0xFF)).set 2 ((value >>> 16) &&& 0xFF)).set 1 ((value >>> 8) &&& 0xFF)) 0 (value &&& 0xFF) = some ((((dest.set 3 ((value >>> 24) &&& 0xFF)).set 2 ((value >>> 16) &&& 0xFF)).set 1 ((value >>> 8) &&& 0xFF)).set 0 (value &&& 0xFF)) := by
    unfold setByte; rw [if_pos (by rw [List.length_set, List.length_set, List.length_set]; omega)]
  refine ⟨((((dest.set 3 ((value >>> 24) &&& 0xFF)).set 2 ((value >>> 16) &&& 0xFF)).set 1 ((value >>> 8) &&& 0xFF)).set 0 (value &&& 0xFF)), ?_, ?_, ?_⟩
  · simp [LittleEndian.u32_to_bytes, h0, h1, h2, h3]
  · rw [List.length_set, List.length_set, List.length_set, List.length_set]
  · intro i hi
    rw [get?_set_of_lt _ _ _ (show 0 < i by omega), get?_set_of_lt _ _ _ (show 1 < i by omega), get?_set_of_lt _ _ _ (show 2 < i by omega), get?_set_of_lt _ _ _ (show 3 < i by omega)]

/-- `BigEndian::u64_to_bytes` writes only indices below 8: the rest of
the destination is unchanged, and the length is preserved. -/
lemma frame_be_u64 (value : Nat) (dest : List Nat) (h : 8 ≤ dest.length) :
    ∃ out, BigEndian.u64_to_bytes value dest = some out ∧ out.length = dest.length ∧
      ∀ i, 8 ≤ i → out.get? i = dest.get? i := by
  have h0 : setByte dest 0 ((value >>> 56) &&& 0xFF) = some (dest.set 0 ((value >>> 56) &&& 0xFF)) := by
    unfold setByte; rw [if_pos (by omega)]
  have h1 : setByte (dest.set 0 ((value >>> 56) &&& 0xFF)) 1 ((value >>> 48) &&& 0xFF) = some ((dest.set 0 ((value >>> 56) &&& 0xFF)).set 1 ((value >>> 48) &&& 0xFF)) := by
    unfold setByte; rw [if_pos (by rw [List.length_set]; omega)]
  have h2 : setByte ((dest.set 0 ((value >>> 56) &&& 0xFF)).set 1 ((value >>> 48) &&& 0xFF)) 2 ((value >>> 40) &&& 0xFF) = some (((dest.set 0 ((value >>> 56) &&& 0xFF)).set 1 ((value >>> 48) &&& 0xFF)).set 2 ((value >>> 40) &&& 0xFF)) := by
    unfold setByte; rw [if_pos (by rw [List.length_set, List.length_set]; omega)]
  have h3 : setByte (((dest.set 0 ((value >>> 56) &&& 0xFF)).set 1 ((value >>> 48) &&& 0xFF)).set 2 ((value >>> 40) &&& 0xFF)) 3 ((value >>> 32) &&& 0xFF) = some ((((dest.set 0 ((value >>> 56) &&& 0xFF)).set 1 ((value >>> 48) &&& 0xFF)).set 2 ((value >>> 40) &&& 0xFF)).set 3 ((value >>> 32) &&& 0xFF)) := by
    unfold setByte; rw [if_pos (by rw [List.length_set, List.length_set, List.length_set]; omega)]
  have h4 : setByte ((((dest.set 0 ((value >>> 56) &&& 0xFF)).set 1 ((value >>> 48) &&& 0xFF)).set 2 ((value >>> 40) &&& 0xFF)).set 3 ((value >>> 32) &&& 0xFF)) 4 ((value >>> 24) &&& 0xFF) = some (((((dest.set 0 ((value >>> 56) &&& 0xFF)).set 1 ((value >>> 48) &&& 0xFF)).set 2 ((value >>> 40) &&& 0xFF)).set 3 ((value >>> 32) &&& 0xFF)).set 4 ((value >>> 24) &&& 0xFF)) := by
    unfold setByte; rw [if_pos (by rw [List.length_set, List.length_set, List.length_set, List.length_set]; omega)]
  have h5 : setByte (((((dest.set 0 ((value >>> 56) &&& 0xFF)).set 1 ((value >>> 48) &&& 0xFF)).set 2 ((value >>> 40) &&& 0xFF)).set 3 ((value >>> 32) &&& 0xFF)).set 4 ((value >>> 24) &&& 0xFF)) 5 ((value >>> 16) &&& 0xFF) = some ((((((dest.set 0 ((value >>> 56) &&& 0xFF)).set 1 ((value >>> 48) &&& 0xFF)).set 2 ((value >>> 40) &&& 0xFF)).set 3 ((value >>> 32) &&& 0xFF)).set 4 ((value >>> 24) &&& 0xFF)).set 5 ((value >>> 16) &&& 0xFF)) := by
    unfold setByte; rw [if_pos (by rw [List.length_set, List.length_set, List.length_set, List.length_set, List.length_set]; omega)]
  have h6 : setByte ((((((dest.set 0 ((value >>> 56) &&& 0xFF)).set 1 ((value >>> 48) &&& 0xFF)).set 2 ((value >>> 40) &&& 0xFF)).set 3 ((value >>> 32) &&& 0xFF)).set 4 ((value >>> 24) &&& 0xFF)).set 5 ((value >>> 16) &&& 0xFF)) 6 ((value >>> 8) &&& 0xFF) = some (((((((dest.set 0 ((value >>> 56) &&& 0xFF)).set 1 ((value >>> 48) &&& 0xFF)).set 2 ((value >>> 40) &&& 0xFF)).set 3 ((value >>> 32) &&& 0xFF)).set 4 ((value >>> 24) &&& 0xFF)).set 5 ((value >>> 16) &&& 0xFF)).set 6 ((value >>> 8) &&& 0xFF)) := by
    unfold setByte; rw [if_pos (by rw [List.length_set, List.length_set, List.length_set, List.length_set, List.length_set, List.length_set]; omega)]
  have h7 : setByte (((((((dest.set 0 ((value >>> 56) &&& 0xFF)).set 1 ((value >>> 48) &&& 0xFF)).set 2 ((value >>> 40) &&& 0xFF)).set 3 ((value >>> 32) &&& 0xFF)).set 4 ((value >>> 24) &&& 0xFF)).set 5 ((value >>> 16) &&& 0xFF)).set 6 ((value >>> 8) &&& 0xFF)) 7 (value &&& 0xFF) = some ((((((((dest.set 0 ((value >>> 56) &&& 0xFF)).set 1 ((value >>> 48) &&& 0xFF)).set 2 ((value >>> 40) &&& 0xFF)).set 3 ((value >>> 32) &&& 0xFF)).set 4 ((value >>> 24) &&& 0xFF)).set 5 ((value >>> 16) &&& 0xFF)).set 6 ((value >>> 8) &&& 0xFF)).set 7 (value &&& 0xFF)) := by
    unfold setByte; rw [if_pos (by rw [List.length_set, List.length_set, List.length_set, List.length_set, List.length_set, List.length_set, List.length_set]; omega)]
  refine ⟨((((((((dest.set 0 ((value >>> 56) &&& 0xFF)).set 1 ((value >>> 48) &&& 0xFF)).set 2 ((value >>> 40) &&& 0xFF)).set 3 ((value >>> 32) &&& 0xFF)).set 4 ((value >>> 24) &&& 0xFF)).set 5 ((value >>> 16) &&& 0xFF)).set 6 ((value >>> 8) &&& 0xFF)).set 7 (value &&& 0xFF)), ?_, ?_, ?_⟩
  · simp [BigEndian.u64_to_bytes, h0, h1, h2, h3, h4, h5, h6, h7]
  · rw [List.length_set, List.length_set, List.length_set, List.length_set, List.length_set, List.length_set, List.length_set, List.length_set]
  · intro i hi
    rw [get?_set_of_lt _ _ _ (show 7 < i by omega), get?_set_of_lt _ _ _ (show 6 < i by omega), get?_set_of_lt _ _ _ (show 5 < i by omega), get?_set_of_lt _ _ _ (show 4 < i by omega), get?_set_of_lt _ _ _ (show 3 < i by omega), get?_set_of_lt _ _ _ (show 2 < i by omega), get?_set_of_lt _ _ _ (show 1 < i by omega), get?_set_of_lt _ _ _ (show 0 < i by omega)]

/-- `LittleEndian::u64_to_bytes` writes only indices below 8: the rest of
the destination is unchanged, and the length is preserved. -/
lemma frame_le_u64 (value : Nat) (dest : List Nat) (h : 8 ≤ dest.length) :
    ∃ out, LittleEndian.u64_to_bytes value dest = some out ∧ out.length = dest.length ∧
      ∀ i, 8 ≤ i → out.get? i = dest.get? i := by
  have h0 : setByte dest 7 ((value >>> 56) &&& 0xFF) = some (dest.set 7 ((value >>> 56) &&& 0xFF)) := by
    unfold setByte; rw [if_pos (by omega)]
  have h1 : setByte (dest.set 7 ((value >>> 56) &&& 0xFF)) 6 ((value >>> 48) &&& 0xFF) = some ((dest.set 7 ((value >>> 56) &&& 0xFF)).set 6 ((value >>> 48) &&& 0xFF)) := by
    unfold setByte; rw [if_pos (by rw [List.length_set]; omega)]
  have h2 : setByte ((dest.set 7 ((value >>> 56) &&& 0xFF)).set 6 ((value >>> 48) &&& 0xFF)) 5 ((value >>> 40) &&& 0xFF) = some (((dest.set 7 ((value >>> 56) &&& 0xFF)).set 6 ((value >>> 48) &&& 0xFF)).set 5 ((value >>> 40) &&& 0xFF)) := by
    unfold setByte; rw [if_pos (by rw [List.length_set, List.length_set]; omega)]
  have h3 : setByte (((dest.set 7 ((value >>> 56) &&& 0xFF)).set 6 ((value >>> 48) &&& 0xFF)).set 5 ((value >>> 40) &&& 0xFF)) 4 ((value >>> 32) &&& 0xFF) = some ((((dest.set 7 ((value >>> 56) &&& 0xFF)).set 6 ((value >>> 48) &&& 0xFF)).set 5 ((value >>> 40) &&& 0xFF)).set 4 ((value >>> 32) &&& 0xFF)) := by
    unfold setByte; rw [if_pos (by rw [List.length_set, List.length_set, List.length_set]; omega)]
  have h4 : setByte ((((dest.set 7 ((value >>> 56) &&& 0xFF)).set 6 ((value >>> 48) &&& 0xFF)).set 5 ((value >>> 40) &&& 0xFF)).set 4 ((value >>> 32) &&& 0xFF)) 3 ((value >>> 24) &&& 0xFF) = some (((((dest.set 7 ((value >>> 56) &&& 0xFF)).set 6 ((value >>> 48) &&& 0xFF)).set 5 ((value >>> 40) &&& 0xFF)).set 4 ((value >>> 32) &&& 0xFF)).set 3 ((value >>> 24) &&& 0xFF)) := by
    unfold setByte; rw [if_pos (by rw [List.length_set, List.length_set, List.length_set, List.length_set]; omega)]
  have h5 : setByte (((((dest.set 7 ((value >>> 56) &&& 0xFF)).set 6 ((value >>> 48) &&& 0xFF)).set 5 ((value >>> 40) &&& 0xFF)).set 4 ((value >>> 32) &&& 0xFF)).set 3 ((value >>> 24) &&& 0xFF)) 2 ((value >>> 16) &&& 0xFF) = some ((((((dest.set 7 ((value >>> 56) &&& 0xFF)).set 6 ((value >>> 48) &&& 0xFF)).set 5 ((value >>> 40) &&& 0xFF)).set 4 ((value >>> 32) &&& 0xFF)).set 3 ((value >>> 24) &&& 0xFF)).set 2 ((value >>> 16) &&& 0xFF)) := by
    unfold setByte; rw [if_pos (by rw [List.length_set, List.length_set, List.length_set, List.length_set, List.length_set]; omega)]
  have h6 : setByte ((((((dest.set 7 ((value >>> 56) &&& 0xFF)).set 6 ((value >>> 48) &&& 0xFF)).set 5 ((value >>> 40) &&& 0xFF)).set 4 ((value >>> 32) &&& 0xFF)).set 3 ((value >>> 24) &&& 0xFF)).set 2 ((value >>> 16) &&& 0xFF)) 1 ((value >>> 8) &&& 0xFF) = some (((((((dest.set 7 ((value >>> 56) &&& 0xFF)).set 6 ((value >>> 48) &&& 0xFF)).set 5 ((value >>> 40) &&& 0xFF)).set 4 ((value >>> 32) &&& 0xFF)).set 3 ((value >>> 24) &&& 0xFF)).set 2 ((value >>> 16) &&& 0xFF)).set 1 ((value >>> 8) &&& 0xFF)) := by
    unfold setByte; rw [if_pos (by rw [List.length_set, List.length_set, List.length_set, List.length_set, List.length_set, List.length_set]; omega)]
  have h7 : setByte (((((((dest.set 7 ((value >>> 56) &&& 0xFF)).set 6 ((value >>> 48) &&& 0xFF)).set 5 ((value >>> 40) &&& 0xFF)).set 4 ((value >>> 32) &&& 0xFF)).set 3 ((value >>> 24) &&& 0xFF)).set 2 ((value >>> 16) &&& 0xFF)).set 1 ((value >>> 8) &&& 0xFF)) 0 (value &&& 0xFF) = some ((((((((dest.set 7 ((value >>> 56) &&& 0xFF)).set 6 ((value >>> 48) &&& 0xFF)).set 5 ((value >>> 40) &&& 0xFF)).set 4 ((value >>> 32) &&& 0xFF)).set 3 ((value >>> 24) &&& 0xFF)).set 2 ((value >>> 16) &&& 0xFF)).set 1 ((value >>> 8) &&& 0xFF)).set 0 (value &&& 0xFF)) := by
    unfold setByte; rw [if_pos (by rw [List.length_set, List.length_set, List.length_set, List.length_set, List.length_set, List.length_set, List.length_set]; omega)]
  refine ⟨((((((((dest.set 7 ((value >>> 56) &&& 0xFF)).set 6 ((value >>> 48) &&& 0xFF)).set 5 ((value >>> 40) &&& 0xFF)).set 4 ((value >>> 32) &&& 0xFF)).set 3 ((value >>> 24) &&& 0xFF)).set 2 ((value >>> 16) &&& 0xFF)).set 1 ((value >>> 8) &&& 0xFF)).set 0 (value &&& 0xFF)), ?_, ?_, ?_⟩
  · simp [LittleEndian.u64_to_bytes, h0, h1, h2, h3, h4, h5, h6, h7]
  · rw [List.length_set, List.length_set, List.length_set, List.length_set, List.length_set, List.length_set, List.length_set, List.length_set]
  · intro i hi
    rw [get?_set_of_lt _ _ _ (show 0 < i by omega), get?_set_of_lt _ _ _ (show 1 < i by omega), get?_set_of_lt _ _ _ (show 2 < i by omega), get?_set_of_lt _ _ _ (show 3 < i by omega), get?_set_of_lt _ _ _ (show 4 < i by omega), get?_set_of_lt _ _ _ (show 5 < i by omega), get?_set_of_lt _ _ _ (show 6 < i by omega), get?_set_of_lt _ _ _ (show 7 < i by omega)]

/-- `BigEndian::u8_to_bytes` frame property. -/
lemma frame_be_u8 (value : Nat) (dest : List Nat) (h : 1 ≤ dest.length) :
    ∃ out, BigEndian.u8_to_bytes value dest = some out ∧ out.length = dest.length ∧
      ∀ i, 1 ≤ i → out.get? i = dest.get? i := by
  refine ⟨dest.set 0 value, ?_, by rw [List.length_set], ?_⟩
  · unfold BigEndian.u8_to_bytes setByte
    rw [if_pos (by omega)]
  · intro i hi
    rw [get?_set_of_lt _ _ _ (show 0 < i by omega)]

/-- `LittleEndian::u8_to_bytes` frame property. -/
lemma frame_le_u8 (value : Nat) (dest : List Nat) (h : 1 ≤ dest.length) :
    ∃ out, LittleEndian.u8_to_bytes value dest = some out ∧ out.length = dest.length ∧
      ∀ i, 1 ≤ i → out.get? i = dest.get? i := by
  refine ⟨dest.set 0 value, ?_, by rw [List.length_set], ?_⟩
  · unfold LittleEndian.u8_to_bytes setByte
    rw [if_pos (by omega)]
  · intro i hi
    rw [get?_set_of_lt _ _ _ (show 0 < i by omega)]

/-- `BigEndian::i8_to_bytes` casts to unsigned and then performs exactly the
`u8_to_bytes` byte placement. -/
lemma bridge_be_i8 (value : Int) (dest : List Nat) :
    BigEndian.i8_to_bytes value dest = BigEndian.u8_to_bytes (toUnsigned 8 value) dest := rfl

/-- `BigEndian::i16_to_bytes` casts to unsigned and then performs exactly the
`u16_to_bytes` byte placement. -/
lemma bridge_be_i16 (value : Int) (dest : List Nat) :
    BigEndian.i16_to_bytes value dest = BigEndian.u16_to_bytes (toUnsigned 16 value) dest := rfl

/-- `BigEndian::i32_to_bytes` casts to unsigned and then performs exactly the
`u32_to_bytes` byte placement. -/
lemma bridge_be_i32 (value : Int) (dest : List Nat) :
    BigEndian.i32_to_bytes value dest = BigEndian.u32_to_bytes (toUnsigned 32 value) dest := rfl

/-- `BigEndian::i64_to_bytes` casts to unsigned and then performs exactly the
`u64_to_bytes` byte placement. -/
lemma bridge_be_i64 (value : Int) (dest : List Nat) :
    BigEndian.i64_to_bytes value dest = BigEndian.u64_to_bytes (toUnsigned 64 value) dest := rfl

/-- `LittleEndian::i8_to_bytes` casts to unsigned and then performs exactly the
`u8_to_bytes` byte placement. -/
lemma bridge_le_i8 (value : Int) (dest : List Nat) :
    LittleEndian.i8_to_bytes value dest = LittleEndian.u8_to_bytes (toUnsigned 8 value) dest := rfl

/-- `LittleEndian::i16_to_bytes` casts to unsigned and then performs exactly the
`u16_to_bytes` byte placement. -/
lemma bridge_le_i16 (value : Int) (dest : List Nat) :
    LittleEndian.i16_to_bytes value dest = LittleEndian.u16_to_bytes (toUnsigned 16 value) dest := rfl

/-- `LittleEndian::i32_to_bytes` casts to unsigned and then performs exactly the
`u32_to_bytes` byte placement. -/
lemma bridge_le_i32 (value : Int) (dest : List Nat) :
    LittleEndian.i32_to_bytes value dest = LittleEndian.u32_to_bytes (toUnsigned 32 value) dest := rfl

/-- `LittleEndian::i64_to_bytes` casts to unsigned and then performs exactly the
`u64_to_bytes` byte placement. -/
lemma bridge_le_i64 (value : Int) (dest : List Nat) :
    LittleEndian.i64_to_bytes value dest = LittleEndian.u64_to_bytes (toUnsigned 64 value) dest := rfl

/-- C1: the pure round-trip claim fails on the code.  Encoding `-2` as a
little-endian `i32` and decoding the resulting 4 bytes with the
little-endian `i32` decode yields `-16777217`, not `-2`:
`LittleEndian::i32_from_bytes` delegates to `BigEndian::u32_from_bytes`,
so the little-endian signed decode reads the bytes in big-endian order. -/
theorem spec_c1 :
    (Endian.to_bytes .little .i32 (-2) (List.replicate 4 0)).bind
      (Endian.from_bytes .little .i32) = some (-16777217) ∧
    (-16777217 : Int) ≠ -2 := by
  exact ⟨by decide, by decide⟩

/-- C2: the claim that the signed decode reinterprets the unsigned decode
of the same ordering fails for little-endian.  On `[1, 0, 0, 0]` the
little-endian unsigned 32-bit decode gives `1`, whose signed
reinterpretation is `1`, but `LittleEndian::i32_from_bytes` returns
`16777216` (the big-endian interpretation). -/
theorem spec_c2 :
    ByteOrder.u32_from_bytes .little [1, 0, 0, 0] = some 1 ∧
    ByteOrder.i32_from_bytes .little [1, 0, 0, 0] = some 16777216 ∧
    toSigned 32 1 ≠ (16777216 : Int) := by
  exact ⟨by decide, by decide, by decide⟩

/-- C3: at the stream level, each signed kind's read is exactly the
same-width unsigned read of the same ordering followed by the
two's-complement reinterpretation, and each signed write is exactly the
unsigned write applied to the reinterpreted bit pattern. -/
theorem spec_c3 (o : ByteOrder) (s : List Nat) (v : Int) :
    (ReadInteger.i8 o s = (ReadInteger.u8 o s).map (fun p => (toSigned 8 p.1, p.2))) ∧
    (ReadInteger.i16 o s = (ReadInteger.u16 o s).map (fun p => (toSigned 16 p.1, p.2))) ∧
    (ReadInteger.i32 o s = (ReadInteger.u32 o s).map (fun p => (toSigned 32 p.1, p.2))) ∧
    (ReadInteger.i64 o s = (ReadInteger.u64 o s).map (fun p => (toSigned 64 p.1, p.2))) ∧
    (WriteInteger.i8 o v = WriteInteger.u8 o (toUnsigned 8 v)) ∧
    (WriteInteger.i16 o v = WriteInteger.u16 o (toUnsigned 16 v)) ∧
    (WriteInteger.i32 o v = WriteInteger.u32 o (toUnsigned 32 v)) ∧
    (WriteInteger.i64 o v = WriteInteger.u64 o (toUnsigned 64 v)) :=
  ⟨rfl, rfl, rfl, rfl, rfl, rfl, rfl, rfl⟩

/-- C4: the big-endian 32-bit decode combines the first four bytes
most-significant-first; in particular `[0x12,0x34,0x56,0x78]` decodes to
`0x12345678` and `[0xFF,0xFF,0xFF,0xFE]` decodes to `-2` as `i32`. -/
theorem spec_c4 :
    (∀ (b0 b1 b2 b3 : Nat) (rest : List Nat), b0 < 256 → b1 < 256 → b2 < 256 → b3 < 256 →
      ByteOrder.u32_from_bytes .big (b0 :: b1 :: b2 :: b3 :: rest) =
        some (((b0 * 256 + b1) * 256 + b2) * 256 + b3)) ∧
    ByteOrder.u32_from_bytes .big [0x12, 0x34, 0x56, 0x78] = some 0x12345678 ∧
    ByteOrder.i32_from_bytes .big [0xFF, 0xFF, 0xFF, 0xFE] = some (-2) := by
  refine ⟨?_, by decide, by decide⟩
  intro b0 b1 b2 b3 rest h0 h1 h2 h3
  show some ((b0 <<< 24) ||| (b1 <<< 16) ||| (b2 <<< 8) ||| (b3 <<< 0)) = some _
  exact congrArg some (dec_bytes32 b0 b1 b2 b3 h1 h2 h3)

/-- Witness for C4 at the spec's concrete example. -/
theorem spec_c4_witness :
    ByteOrder.u32_from_bytes .big [0x12, 0x34, 0x56, 0x78] =
      some (((0x12 * 256 + 0x34) * 256 + 0x56) * 256 + 0x78) :=
  spec_c4.1 0x12 0x34 0x56 0x78 [] (by decide) (by decide) (by decide) (by decide)

/-- C7: `read_byte_array(n)` returns exactly the next `n` bytes of the
stream in order (no byte-order transformation), leaving the stream
advanced by `n`; it fails when fewer than `n` bytes remain. -/
theorem spec_c7 (n : Nat) (s : List Nat) :
    (n ≤ s.length →
      readByteArray n s = some (s.take n, s.drop n) ∧ (s.take n).length = n) ∧
    (s.length < n → readByteArray n s = none) := by
  constructor
  · intro h
    refine ⟨?_, by rw [List.length_take]; omega⟩
    simp [readByteArray, readExact, h]
  · intro h
    have hre : readExact n s = none := by unfold readExact; rw [if_neg (by omega)]
    simp [readByteArray, hre]

/-- Witness for C7 at the spec's concrete example: 3 bytes from
`[0x12,0x32,0x56,0x78]`. -/
theorem spec_c7_witness :
    readByteArray 3 [0x12, 0x32, 0x56, 0x78] = some ([0x12, 0x32, 0x56], [0x78]) ∧
    (([0x12, 0x32, 0x56, 0x78] : List Nat).take 3).length = 3 := by
  have h := (spec_c7 3 [0x12, 0x32, 0x56, 0x78]).1 (by decide)
  exact ⟨by rw [h.1]; rfl, h.2⟩

/-- C9: for every ordering and kind, the pure decode faults (the source
panics, modelled as `none`) exactly when the buffer is shorter than the
kind's byte width, and never faults on a buffer of sufficient length. -/
theorem spec_c9 (o : ByteOrder) (k : IntKind) (bytes : List Nat) :
    (Endian.from_bytes o k bytes).isSome ↔ k.width ≤ bytes.length :=
  isSome_from_bytes o k bytes

/-- C5: for every multi-byte kind and every value, the big-endian byte
sequence written into a width-sized buffer is exactly the reversal of the
little-endian byte sequence. -/
theorem spec_c5 (k : IntKind) (v : Int) (dest : List Nat)
    (hw : 2 ≤ k.width) (hlen : dest.length = k.width) (hv : k.valid v) :
    ∃ bsB bsL, Endian.to_bytes .big k v dest = some bsB ∧
      Endian.to_bytes .little k v dest = some bsL ∧ bsB = bsL.reverse := by
  cases k with
  | u8 => exact absurd hw (by decide)
  | i8 => exact absurd hw (by decide)
  | u16 =>
    simp only [IntKind.width] at hlen
    rcases dest with _ | ⟨a0, _ | ⟨a1, _ | ⟨a2, t⟩⟩⟩ <;>
      simp only [List.length_cons, List.length_nil] at hlen <;>
      first
      | omega
      | exact ⟨_, _, rfl, rfl, rfl⟩
  | i16 =>
    simp only [IntKind.width] at hlen
    rcases dest with _ | ⟨a0, _ | ⟨a1, _ | ⟨a2, t⟩⟩⟩ <;>
      simp only [List.length_cons, List.length_nil] at hlen <;>
      first
      | omega
      | exact ⟨_, _, rfl, rfl, rfl⟩
  | u32 =>
    simp only [IntKind.width] at hlen
    rcases dest with _ | ⟨a0, _ | ⟨a1, _ | ⟨a2, _ | ⟨a3, _ | ⟨a4, t⟩⟩⟩⟩⟩ <;>
      simp only [List.length_cons, List.length_nil] at hlen <;>
      first
      | omega
      | exact ⟨_, _, rfl, rfl, rfl⟩
  | i32 =>
    simp only [IntKind.width] at hlen
    rcases dest with _ | ⟨a0, _ | ⟨a1, _ | ⟨a2, _ | ⟨a3, _ | ⟨a4, t⟩⟩⟩⟩⟩ <;>
      simp only [List.length_cons, List.length_nil] at hlen <;>
      first
      | omega
      | exact ⟨_, _, rfl, rfl, rfl⟩
  | u64 =>
    simp only [IntKind.width] at hlen
    rcases dest with _ | ⟨a0, _ | ⟨a1, _ | ⟨a2, _ | ⟨a3, _ | ⟨a4, _ | ⟨a5, _ | ⟨a6, _ | ⟨a7, _ | ⟨a8, t⟩⟩⟩⟩⟩⟩⟩⟩⟩ <;>
      simp only [List.length_cons, List.length_nil] at hlen <;>
      first
      | omega
      | exact ⟨_, _, rfl, rfl, rfl⟩
  | i64 =>
    simp only [IntKind.width] at hlen
    rcases dest with _ | ⟨a0, _ | ⟨a1, _ | ⟨a2, _ | ⟨a3, _ | ⟨a4, _ | ⟨a5, _ | ⟨a6, _ | ⟨a7, _ | ⟨a8, t⟩⟩⟩⟩⟩⟩⟩⟩⟩ <;>
      simp only [List.length_cons, List.length_nil] at hlen <;>
      first
      | omega
      | exact ⟨_, _, rfl, rfl, rfl⟩

/-- Witness for C5 at `u16`, value `0x1234`. -/
theorem spec_c5_witness :
    ∃ bsB bsL, Endian.to_bytes .big .u16 0x1234 [0, 0] = some bsB ∧
      Endian.to_bytes .little .u16 0x1234 [0, 0] = some bsL ∧ bsB = bsL.reverse :=
  spec_c5 .u16 0x1234 [0, 0] (by decide) (by decide) ⟨by decide, by decide⟩


/-- C6: for every kind, ordering and value, encoding into a buffer of
length at least the kind's width succeeds, preserves the buffer length,
and leaves every byte at index at least the width unchanged. -/
theorem spec_c6 (o : ByteOrder) (k : IntKind) (v : Int) (dest : List Nat)
    (h : k.width ≤ dest.length) :
    ∃ out, Endian.to_bytes o k v dest = some out ∧ out.length = dest.length ∧
      ∀ i, k.width ≤ i → out.get? i = dest.get? i := by
  cases o with
  | big =>
    cases k with
    | u8 =>
      simpa [Endian.to_bytes, ByteOrder.u8_to_bytes, IntKind.width] using
        frame_be_u8 v.toNat dest (by simpa [IntKind.width] using h)
    | i8 =>
      simpa [Endian.to_bytes, ByteOrder.i8_to_bytes, bridge_be_i8, IntKind.width] using
        frame_be_u8 (toUnsigned 8 v) dest (by simpa [IntKind.width] using h)
    | u16 =>
      simpa [Endian.to_bytes, ByteOrder.u16_to_bytes, IntKind.width] using
        frame_be_u16 v.toNat dest (by simpa [IntKind.width] using h)
    | i16 =>
      simpa [Endian.to_bytes, ByteOrder.i16_to_bytes, bridge_be_i16, IntKind.width] using
        frame_be_u16 (toUnsigned 16 v) dest (by simpa [IntKind.width] using h)
    | u32 =>
      simpa [Endian.to_bytes, ByteOrder.u32_to_bytes, IntKind.width] using
        frame_be_u32 v.toNat dest (by simpa [IntKind.width] using h)
    | i32 =>
      simpa [Endian.to_bytes, ByteOrder.i32_to_bytes, bridge_be_i32, IntKind.width] using
        frame_be_u32 (toUnsigned 32 v) dest (by simpa [IntKind.width] using h)
    | u64 =>
      simpa [Endian.to_bytes, ByteOrder.u64_to_bytes, IntKind.width] using
        frame_be_u64 v.toNat dest (by simpa [IntKind.width] using h)
    | i64 =>
      simpa [Endian.to_bytes, ByteOrder.i64_to_bytes, bridge_be_i64, IntKind.width] using
        frame_be_u64 (toUnsigned 64 v) dest (by simpa [IntKind.width] using h)
  | little =>
    cases k with
    | u8 =>
      simpa [Endian.to_bytes, ByteOrder.u8_to_bytes, IntKind.width] using
        frame_le_u8 v.toNat dest (by simpa [IntKind.width] using h)
    | i8 =>
      simpa [Endian.to_bytes, ByteOrder.i8_to_bytes, bridge_le_i8, IntKind.width] using
        frame_le_u8 (toUnsigned 8 v) dest (by simpa [IntKind.width] using h)
    | u16 =>
      simpa [Endian.to_bytes, ByteOrder.u16_to_bytes, IntKind.width] using
        frame_le_u16 v.toNat dest (by simpa [IntKind.width] using h)
    | i16 =>
      simpa [Endian.to_bytes, ByteOrder.i16_to_bytes, bridge_le_i16, IntKind.width] using
        frame_le_u16 (toUnsigned 16 v) dest (by simpa [IntKind.width] using h)
    | u32 =>
      simpa [Endian.to_bytes, ByteOrder.u32_to_bytes, IntKind.width] using
        frame_le_u32 v.toNat dest (by simpa [IntKind.width] using h)
    | i32 =>
      simpa [Endian.to_bytes, ByteOrder.i32_to_bytes, bridge_le_i32, IntKind.width] using
        frame_le_u32 (toUnsigned 32 v) dest (by simpa [IntKind.width] using h)
    | u64 =>
      simpa [Endian.to_bytes, ByteOrder.u64_to_bytes, IntKind.width] using
        frame_le_u64 v.toNat dest (by simpa [IntKind.width] using h)
    | i64 =>
      simpa [Endian.to_bytes, ByteOrder.i64_to_bytes, bridge_le_i64, IntKind.width] using
        frame_le_u64 (toUnsigned 64 v) dest (by simpa [IntKind.width] using h)

/-- Witness for C6: `u32` encode into a 5-byte buffer. -/
theorem spec_c6_witness :
    ∃ out, Endian.to_bytes .big .u32 5 [9, 9, 9, 9, 9] = some out ∧
      out.length = ([9, 9, 9, 9, 9] : List Nat).length ∧
      ∀ i, IntKind.width .u32 ≤ i → out.get? i = ([9, 9, 9, 9, 9] : List Nat).get? i :=
  spec_c6 .big .u32 5 [9, 9, 9, 9, 9] (by decide)

/-- C8: `read_integer_array(n)` succeeds exactly when `n * width` bytes
remain (the first element failure aborts the call with no partial
sequence); on success it returns exactly `n` elements, in call order,
each produced by `read_integer` at its own offset, and consumes exactly
`n * width` bytes. -/
theorem spec_c8 (o : ByteOrder) (k : IntKind) (n : Nat) (s : List Nat) :
    ((readIntegerArray o k n s).isSome ↔ n * k.width ≤ s.length) ∧
    ∀ vs s2, readIntegerArray o k n s = some (vs, s2) →
      vs.length = n ∧ s2 = s.drop (n * k.width) ∧
      ∀ i, i < n → ∃ v rest, readInteger o k (s.drop (i * k.width)) = some (v, rest) ∧
        vs.get? i = some v :=
  ⟨readIntegerArray_isSome o k n s,
    fun vs s2 h => readIntegerArray_success o k n s vs s2 h⟩

/-- Witness for C8 at the spec's concrete example: three big-endian `u16`
reads from a 7-byte stream leave one byte unread. -/
theorem spec_c8_witness :
    ([0x1232, 0x5678, 0x9012] : List Int).length = 3 ∧
    ([0xFF] : List Nat) =
      ([0x12, 0x32, 0x56, 0x78, 0x90, 0x12, 0xFF] : List Nat).drop
        (3 * IntKind.width .u16) := by
  have h := (spec_c8 .big .u16 3 [0x12, 0x32, 0x56, 0x78, 0x90, 0x12, 0xFF]).2
    [0x1232, 0x5678, 0x9012] [0xFF] (by decide)
  exact ⟨h.1, h.2.1⟩


/-- C10: the stream-level round trip holds for every kind and ordering,
including little-endian signed kinds, because the signed stream read
reinterprets the unsigned stream read of the same ordering instead of
calling the ordering's signed pure decode. -/
theorem spec_c10 (o : ByteOrder) (k : IntKind) (v : Int) (hv : k.valid v) :
    ∃ bs, writeInteger o k v = some bs ∧ readInteger o k bs = some (v, []) := by
  cases k with
  | u8 =>
    obtain ⟨x0, henc, hdec⟩ := u8_round o v.toNat
    refine ⟨[x0], ?_, ?_⟩
    · show WriteInteger.u8 o v.toNat = some [x0]
      unfold WriteInteger.u8
      rw [henc]
      rfl
    · show (ReadInteger.u8 o [x0]).map (fun p => ((p.1 : Int), p.2)) = some (v, [])
      have hre : readExact 1 [x0] = some ([x0], []) := rfl
      have h0 : 0 ≤ v := hv.1
      simp [ReadInteger.u8, hre, hdec]
      omega
  | i8 =>
    have h1 : -((2 : Int) ^ (8 - 1)) ≤ v := by norm_num; exact hv.1
    have h2 : v < (2 : Int) ^ (8 - 1) := by norm_num; exact hv.2
    obtain ⟨x0, henc, hdec⟩ := u8_round o (toUnsigned 8 v)
    refine ⟨[x0], ?_, ?_⟩
    · show WriteInteger.i8 o v = some [x0]
      unfold WriteInteger.i8 WriteInteger.u8
      rw [henc]
      rfl
    · show (ReadInteger.u8 o [x0]).map (fun p => (toSigned 8 p.1, p.2)) = some (v, [])
      have hre : readExact 1 [x0] = some ([x0], []) := rfl
      simp [ReadInteger.u8, hre, hdec]
      exact toSigned_toUnsigned v (by norm_num) h1 h2
  | u16 =>
    obtain ⟨x0, x1, henc, hdec⟩ := u16_round o v.toNat
      (by have h1 : v < 65536 := hv.2; have h0 : 0 ≤ v := hv.1; omega)
    refine ⟨[x0, x1], ?_, ?_⟩
    · show WriteInteger.u16 o v.toNat = some [x0, x1]
      unfold WriteInteger.u16
      rw [henc]
      rfl
    · show (ReadInteger.u16 o [x0, x1]).map (fun p => ((p.1 : Int), p.2)) = some (v, [])
      have hre : readExact 2 [x0, x1] = some ([x0, x1], []) := rfl
      have h0 : 0 ≤ v := hv.1
      simp [ReadInteger.u16, hre, hdec]
      omega
  | i16 =>
    have h1 : -((2 : Int) ^ (16 - 1)) ≤ v := by norm_num; exact hv.1
    have h2 : v < (2 : Int) ^ (16 - 1) := by norm_num; exact hv.2
    obtain ⟨x0, x1, henc, hdec⟩ := u16_round o (toUnsigned 16 v)
      (by have := toUnsigned_lt 16 v; norm_num at this; exact this)
    refine ⟨[x0, x1], ?_, ?_⟩
    · show WriteInteger.i16 o v = some [x0, x1]
      unfold WriteInteger.i16 WriteInteger.u16
      rw [henc]
      rfl
    · show (ReadInteger.u16 o [x0, x1]).map (fun p => (toSigned 16 p.1, p.2)) = some (v, [])
      have hre : readExact 2 [x0, x1] = some ([x0, x1], []) := rfl
      simp [ReadInteger.u16, hre, hdec]
      exact toSigned_toUnsigned v (by norm_num) h1 h2
  | u32 =>
    obtain ⟨x0, x1, x2, x3, henc, hdec⟩ := u32_round o v.toNat
      (by have h1 : v < 4294967296 := hv.2; have h0 : 0 ≤ v := hv.1; omega)
    refine ⟨[x0, x1, x2, x3], ?_, ?_⟩
    · show WriteInteger.u32 o v.toNat = some [x0, x1, x2, x3]
      unfold WriteInteger.u32
      rw [henc]
      rfl
    · show (ReadInteger.u32 o [x0, x1, x2, x3]).map (fun p => ((p.1 : Int), p.2)) = some (v, [])
      have hre : readExact 4 [x0, x1, x2, x3] = some ([x0, x1, x2, x3], []) := rfl
      have h0 : 0 ≤ v := hv.1
      simp [ReadInteger.u32, hre, hdec]
      omega
  | i32 =>
    have h1 : -((2 : Int) ^ (32 - 1)) ≤ v := by norm_num; exact hv.1
    have h2 : v < (2 : Int) ^ (32 - 1) := by norm_num; exact hv.2
    obtain ⟨x0, x1, x2, x3, henc, hdec⟩ := u32_round o (toUnsigned 32 v)
      (by have := toUnsigned_lt 32 v; norm_num at this; exact this)
    refine ⟨[x0, x1, x2, x3], ?_, ?_⟩
    · show WriteInteger.i32 o v = some [x0, x1, x2, x3]
      unfold WriteInteger.i32 WriteInteger.u32
      rw [henc]
      rfl
    · show (ReadInteger.u32 o [x0, x1, x2, x3]).map (fun p => (toSigned 32 p.1, p.2)) = some (v, [])
      have hre : readExact 4 [x0, x1, x2, x3] = some ([x0, x1, x2, x3], []) := rfl
      simp [ReadInteger.u32, hre, hdec]
      exact toSigned_toUnsigned v (by norm_num) h1 h2
  | u64 =>
    obtain ⟨x0, x1, x2, x3, x4, x5, x6, x7, henc, hdec⟩ := u64_round o v.toNat
      (by have h1 : v < 18446744073709551616 := hv.2; have h0 : 0 ≤ v := hv.1; omega)
    refine ⟨[x0, x1, x2, x3, x4, x5, x6, x7], ?_, ?_⟩
    · show WriteInteger.u64 o v.toNat = some [x0, x1, x2, x3, x4, x5, x6, x7]
      unfold WriteInteger.u64
      rw [henc]
      rfl
    · show (ReadInteger.u64 o [x0, x1, x2, x3, x4, x5, x6, x7]).map (fun p => ((p.1 : Int), p.2)) = some (v, [])
      have hre : readExact 8 [x0, x1, x2, x3, x4, x5, x6, x7] = some ([x0, x1, x2, x3, x4, x5, x6, x7], []) := rfl
      have h0 : 0 ≤ v := hv.1
      simp [ReadInteger.u64, hre, hdec]
      omega
  | i64 =>
    have h1 : -((2 : Int) ^ (64 - 1)) ≤ v := by norm_num; exact hv.1
    have h2 : v < (2 : Int) ^ (64 - 1) := by norm_num; exact hv.2
    obtain ⟨x0, x1, x2, x3, x4, x5, x6, x7, henc, hdec⟩ := u64_round o (toUnsigned 64 v)
      (by have := toUnsigned_lt 64 v; norm_num at this; exact this)
    refine ⟨[x0, x1, x2, x3, x4, x5, x6, x7], ?_, ?_⟩
    · show WriteInteger.i64 o v = some [x0, x1, x2, x3, x4, x5, x6, x7]
      unfold WriteInteger.i64 WriteInteger.u64
      rw [henc]
      rfl
    · show (ReadInteger.u64 o [x0, x1, x2, x3, x4, x5, x6, x7]).map (fun p => (toSigned 64 p.1, p.2)) = some (v, [])
      have hre : readExact 8 [x0, x1, x2, x3, x4, x5, x6, x7] = some ([x0, x1, x2, x3, x4, x5, x6, x7], []) := rfl
      simp [ReadInteger.u64, hre, hdec]
      exact toSigned_toUnsigned v (by norm_num) h1 h2

/-- Witness for C10 at the interesting corner: little-endian `i32`,
value `-2`. -/
theorem spec_c10_witness :
    ∃ bs, writeInteger .little .i32 (-2) = some bs ∧
      readInteger .little .i32 bs = some (-2, []) :=
  spec_c10 .little .i32 (-2) ⟨by decide, by decide⟩
